import Mathlib

/-!
# PokeyDevice: poll–diff–emit engine, registries and LED digit rendering

A shallow embedding of `src/libs/plugins/pokey/pokeyDevice.cpp`.

* C++ arrays (`_pins[]`, `_encoders[]`, `_matrixLED[]`, the driver mirror
  `_pokey->...[]`) are total functions from `Int`; an index outside the real
  array's capacity is undefined behaviour in the source and an ordinary cell here.
* `uint32_t`, `uint8_t` and `int` values are `Nat`/`Int` with the conversions
  `u32`, `u8`, `i32` written where the source converts.
* `std::map<std::string, int>` is an association list with unique keys;
  `emplace` keeps an existing entry.
* Every driver call (`PK_*`) is an input: the status it returns and the values
  it leaves in the mirror structure are given by a reply record.
-/

namespace PokeyDevice

/-! ## Machine integers -/

/-- Conversion to `uint32_t`. -/
def u32 (x : Int) : Nat := (x % 4294967296).toNat

/-- Conversion to `uint8_t`. -/
def u8 (x : Int) : Nat := (x % 256).toNat

/-- Conversion to (32-bit, two's complement) `int`. -/
def i32 (x : Int) : Int := (x + 2147483648) % 4294967296 - 2147483648

/-- PoKeysLib status code `PK_OK` (the library header is not part of the sources). -/
def PK_OK : Int := 0

/-- PoKeysLib pin function bit `PK_PinCap_digitalInput`. -/
def PK_PinCap_digitalInput : Nat := 2

/-- PoKeysLib pin function bit `PK_PinCap_digitalOutput`. -/
def PK_PinCap_digitalOutput : Nat := 4

/-- PoKeysLib pin function bit `PK_PinCap_invertPin`. -/
def PK_PinCap_invertPin : Nat := 128

/-! ## Data model -/

/-- Value kinds of an event (`el.type`). -/
inductive ConfigType where
  | CONFIG_BOOL
  | CONFIG_INT
  deriving DecidableEq, Repr

/-- The `value` union of an event: `bool_value` or `int_value`. -/
inductive TLVValue where
  | bool_value (b : Bool)
  | int_value (n : Int)
  deriving DecidableEq, Repr

/-- Event record handed to the host callback (`GenericTLV el`). -/
structure GenericTLV where
  ownerPlugin : Nat
  type : ConfigType
  value : TLVValue
  length : Nat
  name : String
  description : String
  units : String
  deriving DecidableEq, Repr

/-- One entry of `_pins[]`. -/
structure Pin where
  pinName : String := ""
  type : String := ""
  pinNumber : Int := 0
  defaultValue : Int := 0
  value : Int := 0
  previousValue : Int := 0
  description : String := ""
  deriving DecidableEq, Repr

/-- One entry of `_encoders[]`; the numeric fields hold 32-bit patterns. -/
structure Encoder where
  name : String := ""
  number : Int := 0
  defaultValue : Nat := 0
  value : Nat := 0
  previousValue : Nat := 0
  previousEncoderValue : Nat := 0
  min : Nat := 0
  max : Nat := 0
  step : Nat := 0
  units : String := ""
  description : String := ""
  deriving DecidableEq, Repr

/-- One entry of `_matrixLED[d].group[]`. -/
structure MatrixLEDGroup where
  name : String := ""
  position : Int := 0
  length : Int := 0
  value : Int := 0
  deriving DecidableEq, Repr

/-- One entry of `_matrixLED[]`. -/
structure MatrixLED where
  name : String := ""
  type : String := ""
  group : Int → MatrixLEDGroup := fun _ => {}

/-- Driver mirror of one encoder (`_pokey->Encoders[i]`). -/
structure sPoKeysEncoder where
  encoderValue : Int := 0
  encoderOptions : Nat := 0
  channelApin : Nat := 0
  channelBpin : Nat := 0
  deriving DecidableEq, Repr

/-- Driver mirror of one pin (`_pokey->Pins[i]`). -/
structure sPoKeysPinData where
  PinFunction : Nat := 0
  DigitalValueGet : Nat := 0
  deriving DecidableEq, Repr

/-- Driver mirror of one matrix display (`_pokey->MatrixLED[d]`). -/
structure sPoKeysMatrixLED where
  rows : Int := 0
  columns : Int := 0
  displayEnabled : Int := 0
  RefreshFlag : Nat := 0
  data : Int → Nat := fun _ => 0

/-- Driver mirror structure (`sPoKeysDevice *_pokey`), the parts the device code touches. -/
structure sPoKeysDevice where
  iPinCount : Nat := 0
  Pins : Int → sPoKeysPinData := fun _ => {}
  Encoders : Int → sPoKeysEncoder := fun _ => {}
  MatrixLED : Int → sPoKeysMatrixLED := fun _ => {}

/-- Name table, `std::map<std::string, int>`. -/
abbrev NameMap := List (String × Int)

/-- Lookup `std::map::find`: the mapped value when the key is present. -/
def NameMap.find (m : NameMap) (k : String) : Option Int := m.lookup k

/-- Insertion `std::map::emplace`: inserts only when the key is absent. -/
def NameMap.emplace (m : NameMap) (k : String) (v : Int) : NameMap :=
  match m.find k with
  | some _ => m
  | none => m ++ [(k, v)]

/-- Number of entries, `std::map::size`. -/
def NameMap.size (m : NameMap) : Nat := m.length

end PokeyDevice

/-- Device instance state (`class PokeyDevice`). -/
structure PokeyDevice where
  pokey : PokeyDevice.sPoKeysDevice := {}
  pluginInstance : Nat := 0
  pins : Int → PokeyDevice.Pin := fun _ => {}
  encoders : Int → PokeyDevice.Encoder := fun _ => {}
  matrixLED : Int → PokeyDevice.MatrixLED := fun _ => {}
  pinMap : PokeyDevice.NameMap := []
  encoderMap : PokeyDevice.NameMap := []
  pwmMap : PokeyDevice.NameMap := []
  displayMap : PokeyDevice.NameMap := []

namespace PokeyDevice

/-- Row patterns `_intToDisplayRow[0..9]` set by the constructor; other offsets read 0. -/
def intToDisplayRow (i : Int) : Nat :=
  if i = 0 then 0b11111100
  else if i = 1 then 0b01100000
  else if i = 2 then 0b11011010
  else if i = 3 then 0b11110010
  else if i = 4 then 0b01100110
  else if i = 5 then 0b10110110
  else if i = 6 then 0b10111110
  else if i = 7 then 0b11100000
  else if i = 8 then 0b11111110
  else if i = 9 then 0b11100110
  else 0

/-! ## Name registry -/

def mapNameToPin (self : PokeyDevice) (name : String) (pin : Int) : PokeyDevice :=
  { self with pinMap := self.pinMap.emplace name pin }

def mapNameToPWM (self : PokeyDevice) (name : String) (pin : Int) : PokeyDevice :=
  { self with pwmMap := self.pwmMap.emplace name pin }

def mapNameToEncoder (self : PokeyDevice) (name : String) (encoderNumber : Int) : PokeyDevice :=
  { self with encoderMap := self.encoderMap.emplace name encoderNumber }

def mapNameToMatrixLED (self : PokeyDevice) (name : String) (id : Int) : PokeyDevice :=
  { self with displayMap := self.displayMap.emplace name id }

/-- Lookup `uint8_t displayFromName`: the mapped value as `uint8_t`, or `(uint8_t)-1`. -/
def displayFromName (self : PokeyDevice) (targetName : String) : Nat :=
  match self.displayMap.find targetName with
  | some v => u8 v
  | none => u8 (-1)

/-- Lookup `int pinFromName`: the mapped value, or `-1`. -/
def pinFromName (self : PokeyDevice) (targetName : String) : Int :=
  match self.pinMap.find targetName with
  | some v => v
  | none => -1

/-- Lookup `uint8_t PWMFromName`: the mapped value as `uint8_t`, or `(uint8_t)-1`. -/
def PWMFromName (self : PokeyDevice) (targetName : String) : Nat :=
  match self.pwmMap.find targetName with
  | some v => u8 v
  | none => u8 (-1)

/-! ## Poll cycle -/

/-- What the driver answers during one poll cycle: the status of
`PK_EncoderValuesGet` and the raw counters it reports, the status of
`PK_DigitalIOGet` and the pin readings it reports. -/
structure PollReply where
  encoderRetValue : Int := 0
  encoderValue : Int → Int := fun _ => 0
  ret : Int := 0
  DigitalValueGet : Int → Nat := fun _ => 0

/-- Call `PK_EncoderValuesGet`: on success the raw counters are in the mirror. -/
def PK_EncoderValuesGet (self : PokeyDevice) (r : PollReply) : PokeyDevice :=
  if r.encoderRetValue = PK_OK then
    { self with pokey := { self.pokey with
        Encoders := fun i => { self.pokey.Encoders i with encoderValue := r.encoderValue i } } }
  else self

/-- Call `PK_DigitalIOGet`: on success the pin readings are in the mirror. -/
def PK_DigitalIOGet (self : PokeyDevice) (r : PollReply) : PokeyDevice :=
  if r.ret = PK_OK then
    { self with pokey := { self.pokey with
        Pins := fun i => { self.pokey.Pins i with DigitalValueGet := r.DigitalValueGet i } } }
  else self

/-- Body of the encoder loop of `DigitalIOTimerCallback` for index `i`
(source lines 76-119): the new state and the event handed to the callback. -/
def encoderBody (self : PokeyDevice) (i : Nat) : PokeyDevice × Option GenericTLV :=
  let e := self.encoders i
  let step := u32 e.step
  let newEncoderValue := u32 (self.pokey.Encoders i).encoderValue
  let previousEncoderValue := u32 e.previousEncoderValue
  let currentValue := u32 e.value
  let min := u32 e.min
  let max := u32 e.max
  if previousEncoderValue ≠ newEncoderValue then
    let e1 : Encoder :=
      if newEncoderValue < previousEncoderValue then
        if currentValue ≤ min then { e with previousValue := min, value := min }
        else { e with value := u32 ((currentValue : Int) - step) }
      else
        if currentValue ≥ max then { e with previousValue := max, value := max }
        else { e with value := u32 ((currentValue : Int) + step) }
    let el : GenericTLV :=
      { ownerPlugin := self.pluginInstance
        type := ConfigType.CONFIG_INT
        value := TLVValue.int_value (i32 e1.value)
        length := 4
        name := e1.name
        description := e1.description
        units := e1.units }
    ({ self with encoders :=
        Function.update self.encoders i { e1 with previousEncoderValue := newEncoderValue } },
      some el)
  else (self, none)

/-- First `n` iterations of the encoder loop, with the events emitted so far. -/
def encoderLoop (self : PokeyDevice) : Nat → PokeyDevice × List GenericTLV
  | 0 => (self, [])
  | n + 1 =>
    let acc := encoderLoop self n
    let step := encoderBody acc.1 n
    (step.1, acc.2 ++ step.2.toList)

/-- Body of the pin loop of `DigitalIOTimerCallback` for index `i` (source lines 129-143). -/
def pinBody (self : PokeyDevice) (i : Nat) : PokeyDevice × Option GenericTLV :=
  let p := self.pins i
  if p.type = "DIGITAL_INPUT" then
    if p.value ≠ ((self.pokey.Pins i).DigitalValueGet : Int) then
      let p1 : Pin :=
        { p with previousValue := p.value, value := ((self.pokey.Pins i).DigitalValueGet : Int) }
      let el : GenericTLV :=
        { ownerPlugin := self.pluginInstance
          type := ConfigType.CONFIG_BOOL
          value := TLVValue.bool_value (decide (p1.value ≠ 0))
          length := 1
          name := p1.pinName
          description := p1.description
          units := (self.encoders i).units }
      ({ self with pins := Function.update self.pins i p1 }, some el)
    else (self, none)
  else (self, none)

/-- First `n` iterations of the pin loop, with the events emitted so far. -/
def pinLoop (self : PokeyDevice) : Nat → PokeyDevice × List GenericTLV
  | 0 => (self, [])
  | n + 1 =>
    let acc := pinLoop self n
    let step := pinBody acc.1 n
    (step.1, acc.2 ++ step.2.toList)

/-- Encoder half of the poll cycle (source lines 71-121). -/
def pollEncoders (self : PokeyDevice) (r : PollReply) : PokeyDevice × List GenericTLV :=
  let s := PK_EncoderValuesGet self r
  if r.encoderRetValue = PK_OK then encoderLoop s s.encoderMap.size else (s, [])

/-- Pin half of the poll cycle (source lines 123-145). -/
def pollPins (self : PokeyDevice) (r : PollReply) : PokeyDevice × List GenericTLV :=
  let s := PK_DigitalIOGet self r
  if r.ret = PK_OK then pinLoop s s.pokey.iPinCount else (s, [])

/-- One poll cycle `DigitalIOTimerCallback`: the state afterwards and the
events handed to the host callback, in order. -/
def DigitalIOTimerCallback (self : PokeyDevice) (r : PollReply) : PokeyDevice × List GenericTLV :=
  let a := pollEncoders self r
  let b := pollPins a.1 r
  (b.1, a.2 ++ b.2)

/-- A run of poll cycles, one driver reply per cycle. -/
def pollMany (self : PokeyDevice) : List PollReply → PokeyDevice
  | [] => self
  | r :: rs => pollMany (DigitalIOTimerCallback self r).1 rs

/-- The event that iteration `i` of the encoder loop of this cycle hands to the callback. -/
def encoderEventAt (self : PokeyDevice) (r : PollReply) (i : Nat) : Option GenericTLV :=
  let s := PK_EncoderValuesGet self r
  if r.encoderRetValue = PK_OK ∧ i < s.encoderMap.size then
    (encoderBody (encoderLoop s i).1 i).2
  else none

/-- The event that iteration `i` of the pin loop of this cycle hands to the callback. -/
def pinEventAt (self : PokeyDevice) (r : PollReply) (i : Nat) : Option GenericTLV :=
  let s := PK_DigitalIOGet (pollEncoders self r).1 r
  if r.ret = PK_OK ∧ i < s.pokey.iPinCount then
    (pinBody (pinLoop s i).1 i).2
  else none

/-! ## Configuration -/

/-- Call `outputPin(uint8_t pin)`: marks the mirror pin as inverted digital output. -/
def outputPin (self : PokeyDevice) (pin : Nat) : PokeyDevice :=
  let idx : Int := u8 ((pin : Int) - 1)
  { self with pokey := { self.pokey with
      Pins := Function.update self.pokey.Pins idx
        { self.pokey.Pins idx with PinFunction := PK_PinCap_digitalOutput ||| PK_PinCap_invertPin } } }

/-- Call `inputPin(uint8_t pin)`: marks the mirror pin as digital input. -/
def inputPin (self : PokeyDevice) (pin : Nat) : PokeyDevice :=
  let idx : Int := u8 ((pin : Int) - 1)
  { self with pokey := { self.pokey with
      Pins := Function.update self.pokey.Pins idx
        { self.pokey.Pins idx with PinFunction := PK_PinCap_digitalInput } } }

/-- Configuration call `addPin(pinName, pinNumber, pinType, defaultValue, description)`. -/
def addPin (self : PokeyDevice) (pinName : String) (pinNumber : Int) (pinType : String)
    (defaultValue : Int) (description : String) : PokeyDevice :=
  let s0 :=
    if pinType = "DIGITAL_OUTPUT" then outputPin self (u8 pinNumber)
    else if pinType = "DIGITAL_INPUT" then inputPin self (u8 pinNumber)
    else self
  let s1 := mapNameToPin s0 pinName pinNumber
  let portNumber := pinNumber - 1
  let p : Pin :=
    { s1.pins portNumber with
        pinName := pinName
        type := pinType
        pinNumber := pinNumber
        defaultValue := defaultValue
        value := defaultValue
        description := description }
  { s1 with pins := Function.update s1.pins portNumber p }

/-- What the driver answers during `addEncoder`: the encoder mirror after
`PK_EncoderConfigurationGet` and the status of `PK_EncoderConfigurationSet`. -/
structure EncoderConfigReply where
  Encoders : Int → sPoKeysEncoder := fun _ => {}
  val : Int := 0

/-- Configuration call `addEncoder(encoderNumber, defaultValue, name, description,
min, max, step, invertDirection, units)`; `none` when `assert(encoderNumber >= 1)` fails. -/
def addEncoder (self : PokeyDevice) (r : EncoderConfigReply) (encoderNumber : Int)
    (defaultValue : Nat) (name description : String) (min max step invertDirection : Int)
    (units : String) : Option PokeyDevice :=
  if encoderNumber < 1 then none
  else
    let encoderIndex := encoderNumber - 1
    let m0 : sPoKeysEncoder :=
      { r.Encoders encoderIndex with encoderValue := i32 defaultValue, encoderOptions := 0b11 }
    let m1 : sPoKeysEncoder :=
      if encoderNumber = 1 then
        if invertDirection ≠ 0 then { m0 with channelApin := 1, channelBpin := 0 }
        else { m0 with channelApin := 1, channelBpin := 0 }
      else if encoderNumber = 2 then
        if invertDirection ≠ 0 then { m0 with channelApin := 5, channelBpin := 4 }
        else { m0 with channelApin := 4, channelBpin := 5 }
      else if encoderNumber = 3 then
        if invertDirection ≠ 0 then { m0 with channelApin := 15, channelBpin := 14 }
        else { m0 with channelApin := 14, channelBpin := 15 }
      else m0
    let e : Encoder :=
      { self.encoders encoderIndex with
          name := name
          number := encoderNumber
          defaultValue := u32 defaultValue
          value := u32 defaultValue
          previousValue := u32 defaultValue
          previousEncoderValue := u32 defaultValue
          min := u32 min
          max := u32 max
          step := u32 step
          units := units
          description := description }
    let s1 : PokeyDevice :=
      { self with
          pokey := { self.pokey with Encoders := Function.update r.Encoders encoderIndex m1 }
          encoders := Function.update self.encoders encoderIndex e }
    if r.val = PK_OK then some (mapNameToEncoder s1 name encoderNumber) else some s1

/-- Configuration call `addGroupToMatrixLED(id, displayId, name, digits, position)`:
the group is stored at index `position` of the display's group table. -/
def addGroupToMatrixLED (self : PokeyDevice) (id : Int) (displayId : Int) (name : String)
    (digits : Int) (position : Int) : PokeyDevice :=
  let _unused := id
  let led := self.matrixLED displayId
  let g : MatrixLEDGroup :=
    { led.group position with name := name, position := position, length := digits, value := 0 }
  let led1 : MatrixLED := { led with group := Function.update led.group position g }
  { self with matrixLED := Function.update self.matrixLED displayId led1 }

/-! ## Display rendering -/

/-- Decimal text of an `int`, `std::to_string(value)`. -/
def to_string (value : Int) : List Char :=
  if value < 0 then '-' :: Nat.toDigits 10 value.natAbs else Nat.toDigits 10 value.natAbs

/-- Loop `for (int i = a; i < b; i++)` over a state. -/
def forRange {σ : Type} (a b : Int) (body : Int → σ → σ) (s : σ) : σ :=
  (List.range (b - a).toNat).foldl (fun acc (k : Nat) => body (a + (k : Int)) acc) s

/-- Group lookup of `displayNumber` (source lines 462-468): the last index below
`MAX_MATRIX_LED_GROUPS` whose group has the target name, 0 when there is none. -/
def findGroupIndex (MAX_MATRIX_LED_GROUPS : Nat) (led : MatrixLED) (targetName : String) : Int :=
  forRange 0 MAX_MATRIX_LED_GROUPS
    (fun i groupIndex => if (led.group i).name = targetName then i else groupIndex) 0

/-- Body of the per-character loop of `displayNumber` (source lines 489-501), on
the pair (last rendered value of the group, cell buffer). -/
def renderChar (value : Int) (charString : List Char) (groupIndex groupLength : Int)
    (i : Int) (acc : Int × (Int → Nat)) : Int × (Int → Nat) :=
  let displayOffset : Int := ((charString.getD i.toNat (Char.ofNat 0)).toNat : Int) - 48
  let convertedValue := intToDisplayRow displayOffset
  let position := groupIndex + i
  if value > 0 then
    ((convertedValue : Int), Function.update acc.2 position convertedValue)
  else if value = -1 then
    (acc.1, forRange groupIndex (groupLength + groupIndex) (fun j d => Function.update d j 0) acc.2)
  else acc

/-- Rendering part of `displayNumber` (source lines 462-503): the last rendered
value of the resolved group and the cell buffer of the display afterwards. -/
def renderGroup (MAX_MATRIX_LED_GROUPS : Nat) (self : PokeyDevice)
    (displayNumber : Nat) (targetName : String) (value : Int) : Int × (Int → Nat) :=
  let led := self.matrixLED displayNumber
  let groupIndex := findGroupIndex MAX_MATRIX_LED_GROUPS led targetName
  let value := if value < -1 then i32 (value * -1) else value
  let charString := to_string value
  let numberOfChars : Int := charString.length
  let groupLength := (led.group groupIndex).length
  let data1 : Int → Nat :=
    if value = 0 then
      let position := (led.group groupIndex).position
      let cleared := forRange position (groupLength + position)
        (fun i d => Function.update d i 0b00000000) (self.pokey.MatrixLED displayNumber).data
      Function.update cleared ((position + groupLength) - 1) (intToDisplayRow 0)
    else (self.pokey.MatrixLED displayNumber).data
  if numberOfChars ≤ groupLength then
    forRange 0 numberOfChars (renderChar value charString groupIndex groupLength)
      ((led.group groupIndex).value, data1)
  else ((led.group groupIndex).value, data1)

/-- Command `displayNumber(displayNumber, targetName, value)`; `PK_MatrixLEDUpdate`
is the status the driver returns for the buffer update. The result is the state
afterwards and the returned `uint8_t`. -/
def displayNumber (MAX_MATRIX_LED_GROUPS : Nat) (self : PokeyDevice) (PK_MatrixLEDUpdate : Int)
    (displayNumber : Nat) (targetName : String) (value : Int) : PokeyDevice × Nat :=
  let led := self.matrixLED displayNumber
  let groupIndex := findGroupIndex MAX_MATRIX_LED_GROUPS led targetName
  let rendered := renderGroup MAX_MATRIX_LED_GROUPS self displayNumber targetName value
  let g1 : MatrixLEDGroup := { led.group groupIndex with value := rendered.1 }
  let led1 : MatrixLED := { led with group := Function.update led.group groupIndex g1 }
  let mirror1 : sPoKeysMatrixLED :=
    { self.pokey.MatrixLED displayNumber with data := rendered.2, RefreshFlag := 1 }
  let pokey1 : sPoKeysDevice :=
    { self.pokey with MatrixLED := Function.update self.pokey.MatrixLED displayNumber mirror1 }
  let self1 : PokeyDevice :=
    { self with matrixLED := Function.update self.matrixLED displayNumber led1, pokey := pokey1 }
  if PK_MatrixLEDUpdate ≠ PK_OK then (self1, u8 (-1)) else (self1, 0)

/-- Command entry point `targetValue(std::string targetName, int value)`. -/
def targetValue_int (MAX_MATRIX_LED_GROUPS : Nat) (self : PokeyDevice) (PK_MatrixLEDUpdate : Int)
    (targetName : String) (value : Int) : PokeyDevice × Nat :=
  let displayNum := displayFromName self targetName
  let r := displayNumber MAX_MATRIX_LED_GROUPS self PK_MatrixLEDUpdate displayNum targetName value
  (r.1, 0)

/-- The cell buffer of display `d`, `_pokey->MatrixLED[d].data`. -/
def cells (self : PokeyDevice) (d : Int) : Int → Nat := (self.pokey.MatrixLED d).data

/-! ## Pin write command -/

/-- Command entry point `targetValue(std::string targetName, bool value)`;
`PK_DigitalIOSetSingle pin value` is the status the driver returns for the
single-pin write. The result is the list of single-pin writes issued to the
driver (pin index, value), in order, and the returned `uint32_t`. -/
def targetValue_bool (self : PokeyDevice) (PK_DigitalIOSetSingle : Nat → Bool → Int)
    (targetName : String) (value : Bool) : List (Nat × Bool) × Nat :=
  let retValue : Nat := u32 (-1)
  let pin : Nat := u8 (pinFromName self targetName - 1)
  if (pin : Int) ≥ 0 then ([(pin, value)], u32 (PK_DigitalIOSetSingle pin value))
  else ([], retValue)

/-! ## Lock and driver-call traces -/

/-- A step of an operation that matters for the lock discipline: taking the
global lock `_BigPokeyLock` (a `std::lock_guard` is constructed), giving it back
(the guard goes out of scope), or a call into the driver library. -/
inductive Step where
  | acquire
  | release
  | driver (call : String)
  deriving DecidableEq, Repr

/-- Capability query `isPinDigitalOutput`. -/
def trace_isPinDigitalOutput : List Step :=
  [Step.acquire, Step.driver "PK_CheckPinCapability", Step.release]

/-- Capability query `isPinDigitalInput`. -/
def trace_isPinDigitalInput : List Step :=
  [Step.acquire, Step.driver "PK_CheckPinCapability", Step.release]

/-- Capability query `isEncoderCapable(pin)`: the driver is asked for the six
encoder pins only. -/
def trace_isEncoderCapable (pin : Int) : List Step :=
  if pin = 1 ∨ pin = 2 ∨ pin = 5 ∨ pin = 6 ∨ pin = 15 ∨ pin = 16 then
    [Step.acquire, Step.driver "PK_CheckPinCapability", Step.release]
  else [Step.acquire, Step.release]

/-- Capability query `validatePinCapability(pin, type)`. -/
def trace_validatePinCapability (type : String) : List Step :=
  if type = "DIGITAL_OUTPUT" then trace_isPinDigitalOutput
  else if type = "DIGITAL_INPUT" then trace_isPinDigitalInput
  else []

/-- Driver write `outputPin(pin)`. -/
def trace_outputPin : List Step :=
  [Step.acquire, Step.driver "PK_PinConfigurationSet", Step.release]

/-- Driver write `inputPin(pin)`. -/
def trace_inputPin : List Step :=
  [Step.acquire, Step.driver "PK_PinConfigurationSet", Step.release]

/-- Configuration call `addPin`: the driver is reached through `outputPin` or `inputPin`. -/
def trace_addPin (pinType : String) : List Step :=
  if pinType = "DIGITAL_OUTPUT" then trace_outputPin
  else if pinType = "DIGITAL_INPUT" then trace_inputPin
  else []

/-- Configuration call `addPWM` (source lines 169-193): no guard is constructed. -/
def trace_addPWM : List Step :=
  [Step.driver "PK_PWMConfigurationGet", Step.driver "PK_PWMConfigurationSet"]

/-- Configuration call `addEncoder`; `val` is the status of
`PK_EncoderConfigurationSet`. Nothing happens when the assertion fails. -/
def trace_addEncoder (encoderNumber : Int) (val : Int) : List Step :=
  if encoderNumber < 1 then []
  else
    [Step.acquire, Step.driver "PK_EncoderConfigurationGet",
      Step.driver "PK_EncoderConfigurationSet"] ++
    (if val = PK_OK then [Step.driver "PK_EncoderValuesSet"] else []) ++ [Step.release]

/-- Configuration call `addMatrixLED`. -/
def trace_addMatrixLED : List Step :=
  [Step.acquire, Step.driver "PK_MatrixLEDConfigurationGet", Step.release]

/-- Configuration call `configMatrixLED`. -/
def trace_configMatrixLED : List Step :=
  [Step.acquire, Step.driver "PK_MatrixLEDConfigurationSet", Step.driver "PK_MatrixLEDUpdate",
    Step.release]

/-- Command `displayNumber`. -/
def trace_displayNumber : List Step :=
  [Step.acquire, Step.driver "PK_MatrixLEDUpdate", Step.release]

/-- Command `targetValue(name, int)`: the lookup, then `displayNumber`. -/
def trace_targetValue_int : List Step := trace_displayNumber

/-- Command `targetValue(name, float)` (source lines 418-432): no guard is constructed. -/
def trace_targetValue_float : List Step :=
  [Step.driver "PK_SL_PWM_SetDuty", Step.driver "PK_PWMUpdate",
    Step.driver "PK_SL_PWM_SetDuty", Step.driver "PK_PWMUpdate"]

/-- Command `targetValue(name, bool)`: the guard `pin >= 0` on a `uint8_t` always passes. -/
def trace_targetValue_bool (self : PokeyDevice) (targetName : String) : List Step :=
  let pin : Nat := u8 (pinFromName self targetName - 1)
  [Step.acquire] ++ (if (pin : Int) ≥ 0 then [Step.driver "PK_DigitalIOSetSingle"] else []) ++
    [Step.release]

/-- Device naming `name(std::string)`. -/
def trace_name : List Step :=
  [Step.acquire, Step.driver "PK_DeviceNameSet", Step.release]

/-- Poll cycle `DigitalIOTimerCallback`. -/
def trace_DigitalIOTimerCallback : List Step :=
  [Step.acquire, Step.driver "PK_EncoderValuesGet", Step.driver "PK_DigitalIOGet", Step.release]

/-- Whether every driver call of a trace happens while the lock is held; `held`
says whether the operation holds the lock at the start of the trace. -/
def lockDiscipline : Bool → List Step → Bool
  | _, [] => true
  | _, Step.acquire :: rest => lockDiscipline true rest
  | _, Step.release :: rest => lockDiscipline false rest
  | held, Step.driver _ :: rest => held && lockDiscipline held rest

/-! ## Encoder capability validation -/

/-- Pin capabilities of PoKeysLib (`ePK_AllPinCap`) that the device code asks about. -/
inductive ePK_AllPinCap where
  | PK_AllPinCap_digitalInput
  | PK_AllPinCap_digitalOutput
  | PK_AllPinCap_fastEncoder1A
  | PK_AllPinCap_fastEncoder1B
  | PK_AllPinCap_fastEncoder2A
  | PK_AllPinCap_fastEncoder2B
  | PK_AllPinCap_fastEncoder3A
  | PK_AllPinCap_fastEncoder3B
  deriving DecidableEq, Repr

/-- Modelled from the spec: the constant `ENCODER_1` is not in the sources; encoder
ordinals are 1..3. -/
def ENCODER_1 : Int := 1

/-- Modelled from the spec: the constant `ENCODER_2` is not in the sources; encoder
ordinals are 1..3. -/
def ENCODER_2 : Int := 2

/-- Modelled from the spec: the constant `ENCODER_3` is not in the sources; encoder
ordinals are 1..3. -/
def ENCODER_3 : Int := 3

/-- Capability query `isEncoderCapable(pin)`; `PK_CheckPinCapability index cap` is
what the driver returns for the 0-based pin index and the capability asked. -/
def isEncoderCapable (PK_CheckPinCapability : Nat → ePK_AllPinCap → Int) (pin : Int) : Bool :=
  if pin = 1 then
    decide (PK_CheckPinCapability 0 ePK_AllPinCap.PK_AllPinCap_fastEncoder1A ≠ 0)
  else if pin = 2 then
    decide (PK_CheckPinCapability 1 ePK_AllPinCap.PK_AllPinCap_fastEncoder1B ≠ 0)
  else if pin = 5 then
    decide (PK_CheckPinCapability 4 ePK_AllPinCap.PK_AllPinCap_fastEncoder2A ≠ 0)
  else if pin = 6 then
    decide (PK_CheckPinCapability 5 ePK_AllPinCap.PK_AllPinCap_fastEncoder2B ≠ 0)
  else if pin = 15 then
    decide (PK_CheckPinCapability 14 ePK_AllPinCap.PK_AllPinCap_fastEncoder3A ≠ 0)
  else if pin = 16 then
    decide (PK_CheckPinCapability 14 ePK_AllPinCap.PK_AllPinCap_fastEncoder3B ≠ 0)
  else false

/-- Capability query `validateEncoder(encoderNumber)`. -/
def validateEncoder (PK_CheckPinCapability : Nat → ePK_AllPinCap → Int) (encoderNumber : Int) :
    Bool :=
  if encoderNumber = ENCODER_1 then
    isEncoderCapable PK_CheckPinCapability 1 && isEncoderCapable PK_CheckPinCapability 2
  else if encoderNumber = ENCODER_2 then
    isEncoderCapable PK_CheckPinCapability 5 && isEncoderCapable PK_CheckPinCapability 6
  else if encoderNumber = ENCODER_3 then
    isEncoderCapable PK_CheckPinCapability 15 && isEncoderCapable PK_CheckPinCapability 16
  else false

/-- A driver that reports exactly the capabilities listed in `caps`. -/
def reportsOnly (caps : List (Nat × ePK_AllPinCap)) (index : Nat) (cap : ePK_AllPinCap) : Int :=
  if (index, cap) ∈ caps then 1 else 0

/-! ## Frame lemmas for the poll loops -/

theorem encoderBody_frame (s : PokeyDevice) (i : Nat) :
    (encoderBody s i).1.pins = s.pins ∧ (encoderBody s i).1.pokey = s.pokey ∧
    (encoderBody s i).1.pluginInstance = s.pluginInstance ∧
    (encoderBody s i).1.encoderMap = s.encoderMap ∧
    (encoderBody s i).1.matrixLED = s.matrixLED ∧
    (∀ j : Int, j ≠ (i : Int) → (encoderBody s i).1.encoders j = s.encoders j) ∧
    (∀ j : Int, ((encoderBody s i).1.encoders j).units = (s.encoders j).units) := by
  unfold encoderBody
  simp only []
  split
  · refine ⟨rfl, rfl, rfl, rfl, rfl, ?_, ?_⟩
    · intro j hj
      simp [Function.update, hj]
    · intro j
      by_cases hj : j = (i : Int)
      · subst hj
        simp only [Function.update_same]
        split <;> split <;> rfl
      · simp [Function.update, hj]
  · exact ⟨rfl, rfl, rfl, rfl, rfl, fun _ _ => rfl, fun _ => rfl⟩

theorem encoderLoop_frame (s : PokeyDevice) (n : Nat) :
    (encoderLoop s n).1.pins = s.pins ∧ (encoderLoop s n).1.pokey = s.pokey ∧
    (encoderLoop s n).1.pluginInstance = s.pluginInstance ∧
    (encoderLoop s n).1.encoderMap = s.encoderMap ∧
    (encoderLoop s n).1.matrixLED = s.matrixLED ∧
    (∀ j : Int, (n : Int) ≤ j → (encoderLoop s n).1.encoders j = s.encoders j) ∧
    (∀ j : Int, ((encoderLoop s n).1.encoders j).units = (s.encoders j).units) := by
  induction n with
  | zero => exact ⟨rfl, rfl, rfl, rfl, rfl, fun _ _ => rfl, fun _ => rfl⟩
  | succ n ih =>
    obtain ⟨h1, h2, h3, h4, h5, h6, h7⟩ := ih
    obtain ⟨b1, b2, b3, b4, b5, b6, b7⟩ := encoderBody_frame (encoderLoop s n).1 n
    simp only [encoderLoop]
    refine ⟨b1.trans h1, b2.trans h2, b3.trans h3, b4.trans h4, b5.trans h5, ?_, ?_⟩
    · intro j hj
      have hne : j ≠ (n : Int) := by push_cast at hj; omega
      rw [b6 j hne]
      exact h6 j (by push_cast at hj; omega)
    · intro j
      rw [b7 j, h7 j]

theorem encoderLoop_events (s : PokeyDevice) (n : Nat) :
    (encoderLoop s n).2 =
      (List.range n).filterMap (fun i => (encoderBody (encoderLoop s i).1 i).2) := by
  induction n with
  | zero => rfl
  | succ n ih =>
    simp only [encoderLoop, List.range_succ, List.filterMap_append, ih]
    cases h : (encoderBody (encoderLoop s n).1 n).2 <;> simp [List.filterMap_cons, h]


theorem encoderBody_local (s t : PokeyDevice) (i : Nat)
    (he : s.encoders i = t.encoders i)
    (hm : s.pokey.Encoders i = t.pokey.Encoders i)
    (hp : s.pluginInstance = t.pluginInstance) :
    (encoderBody s i).2 = (encoderBody t i).2 ∧
    (encoderBody s i).1.encoders i = (encoderBody t i).1.encoders i := by
  unfold encoderBody
  simp only [he, hm, hp]
  split
  · simp only [Function.update_same, and_self]
  · exact ⟨rfl, he⟩

theorem pinBody_frame (s : PokeyDevice) (i : Nat) :
    (pinBody s i).1.encoders = s.encoders ∧ (pinBody s i).1.pokey = s.pokey ∧
    (pinBody s i).1.pluginInstance = s.pluginInstance ∧
    (pinBody s i).1.encoderMap = s.encoderMap ∧
    (pinBody s i).1.matrixLED = s.matrixLED ∧
    (∀ j : Int, j ≠ (i : Int) → (pinBody s i).1.pins j = s.pins j) := by
  unfold pinBody
  simp only []
  split
  · split
    · refine ⟨rfl, rfl, rfl, rfl, rfl, ?_⟩
      intro j hj
      simp [Function.update, hj]
    · exact ⟨rfl, rfl, rfl, rfl, rfl, fun _ _ => rfl⟩
  · exact ⟨rfl, rfl, rfl, rfl, rfl, fun _ _ => rfl⟩

theorem pinLoop_frame (s : PokeyDevice) (n : Nat) :
    (pinLoop s n).1.encoders = s.encoders ∧ (pinLoop s n).1.pokey = s.pokey ∧
    (pinLoop s n).1.pluginInstance = s.pluginInstance ∧
    (pinLoop s n).1.encoderMap = s.encoderMap ∧
    (pinLoop s n).1.matrixLED = s.matrixLED ∧
    (∀ j : Int, (n : Int) ≤ j → (pinLoop s n).1.pins j = s.pins j) := by
  induction n with
  | zero => exact ⟨rfl, rfl, rfl, rfl, rfl, fun _ _ => rfl⟩
  | succ n ih =>
    obtain ⟨h1, h2, h3, h4, h5, h6⟩ := ih
    obtain ⟨b1, b2, b3, b4, b5, b6⟩ := pinBody_frame (pinLoop s n).1 n
    simp only [pinLoop]
    refine ⟨b1.trans h1, b2.trans h2, b3.trans h3, b4.trans h4, b5.trans h5, ?_⟩
    intro j hj
    have hne : j ≠ (n : Int) := by push_cast at hj; omega
    rw [b6 j hne]
    exact h6 j (by push_cast at hj; omega)

theorem pinLoop_events (s : PokeyDevice) (n : Nat) :
    (pinLoop s n).2 =
      (List.range n).filterMap (fun i => (pinBody (pinLoop s i).1 i).2) := by
  induction n with
  | zero => rfl
  | succ n ih =>
    simp only [pinLoop, List.range_succ, List.filterMap_append, ih]
    cases h : (pinBody (pinLoop s n).1 n).2 <;> simp [List.filterMap_cons, h]

theorem pinBody_local (s t : PokeyDevice) (i : Nat)
    (hpin : s.pins i = t.pins i)
    (hm : s.pokey.Pins i = t.pokey.Pins i)
    (he : (s.encoders i).units = (t.encoders i).units)
    (hp : s.pluginInstance = t.pluginInstance) :
    (pinBody s i).2 = (pinBody t i).2 ∧
    (pinBody s i).1.pins i = (pinBody t i).1.pins i := by
  unfold pinBody
  simp only [hpin, hm, he, hp]
  split
  · split
    · simp only [Function.update_same, and_self]
    · exact ⟨rfl, hpin⟩
  · exact ⟨rfl, hpin⟩

/-- The pin loop at index `i` after an earlier part of the loop. -/
theorem pinLoop_later (s : PokeyDevice) (i n : Nat) (h : i < n) :
    (pinLoop s n).1.pins i = (pinBody (pinLoop s i).1 i).1.pins i := by
  induction n with
  | zero => omega
  | succ n ih =>
    simp only [pinLoop]
    by_cases hin : i = n
    · subst hin; rfl
    · have hne : (i : Int) ≠ (n : Int) := by exact_mod_cast hin
      rw [(pinBody_frame (pinLoop s n).1 n).2.2.2.2.2 i hne]
      exact ih (by omega)

theorem encoderLoop_later (s : PokeyDevice) (i n : Nat) (h : i < n) :
    (encoderLoop s n).1.encoders i = (encoderBody (encoderLoop s i).1 i).1.encoders i := by
  induction n with
  | zero => omega
  | succ n ih =>
    simp only [encoderLoop]
    by_cases hin : i = n
    · subst hin; rfl
    · have hne : (i : Int) ≠ (n : Int) := by exact_mod_cast hin
      rw [(encoderBody_frame (encoderLoop s n).1 n).2.2.2.2.2.1 i hne]
      exact ih (by omega)


theorem PK_EncoderValuesGet_frame (self : PokeyDevice) (r : PollReply) :
    (PK_EncoderValuesGet self r).pins = self.pins ∧
    (PK_EncoderValuesGet self r).encoders = self.encoders ∧
    (PK_EncoderValuesGet self r).pluginInstance = self.pluginInstance ∧
    (PK_EncoderValuesGet self r).encoderMap = self.encoderMap ∧
    (PK_EncoderValuesGet self r).matrixLED = self.matrixLED ∧
    (PK_EncoderValuesGet self r).pokey.Pins = self.pokey.Pins ∧
    (PK_EncoderValuesGet self r).pokey.iPinCount = self.pokey.iPinCount ∧
    (PK_EncoderValuesGet self r).pokey.MatrixLED = self.pokey.MatrixLED ∧
    (r.encoderRetValue = PK_OK → ∀ j : Int,
      ((PK_EncoderValuesGet self r).pokey.Encoders j).encoderValue = r.encoderValue j) := by
  unfold PK_EncoderValuesGet
  split
  · exact ⟨rfl, rfl, rfl, rfl, rfl, rfl, rfl, rfl, fun _ _ => rfl⟩
  · rename_i h
    exact ⟨rfl, rfl, rfl, rfl, rfl, rfl, rfl, rfl, fun h2 => absurd h2 h⟩

theorem PK_DigitalIOGet_frame (self : PokeyDevice) (r : PollReply) :
    (PK_DigitalIOGet self r).pins = self.pins ∧
    (PK_DigitalIOGet self r).encoders = self.encoders ∧
    (PK_DigitalIOGet self r).pluginInstance = self.pluginInstance ∧
    (PK_DigitalIOGet self r).encoderMap = self.encoderMap ∧
    (PK_DigitalIOGet self r).matrixLED = self.matrixLED ∧
    (PK_DigitalIOGet self r).pokey.iPinCount = self.pokey.iPinCount ∧
    (PK_DigitalIOGet self r).pokey.MatrixLED = self.pokey.MatrixLED ∧
    (r.ret = PK_OK → ∀ j : Int,
      ((PK_DigitalIOGet self r).pokey.Pins j).DigitalValueGet = r.DigitalValueGet j) := by
  unfold PK_DigitalIOGet
  split
  · exact ⟨rfl, rfl, rfl, rfl, rfl, rfl, rfl, fun _ _ => rfl⟩
  · rename_i h
    exact ⟨rfl, rfl, rfl, rfl, rfl, rfl, rfl, fun h2 => absurd h2 h⟩

theorem pollEncoders_frame (self : PokeyDevice) (r : PollReply) :
    (pollEncoders self r).1.pins = self.pins ∧
    (pollEncoders self r).1.pokey.Pins = self.pokey.Pins ∧
    (pollEncoders self r).1.pokey.iPinCount = self.pokey.iPinCount ∧
    (pollEncoders self r).1.pokey.MatrixLED = self.pokey.MatrixLED ∧
    (pollEncoders self r).1.pluginInstance = self.pluginInstance ∧
    (pollEncoders self r).1.encoderMap = self.encoderMap ∧
    (pollEncoders self r).1.matrixLED = self.matrixLED ∧
    (∀ j : Int, (((pollEncoders self r).1.encoders j).units = (self.encoders j).units)) := by
  obtain ⟨g1, g2, g3, g4, g5, g6, g7, g8, _⟩ := PK_EncoderValuesGet_frame self r
  unfold pollEncoders
  simp only []
  split
  · obtain ⟨h1, h2, h3, h4, h5, _, h7⟩ := encoderLoop_frame (PK_EncoderValuesGet self r)
      (PK_EncoderValuesGet self r).encoderMap.size
    refine ⟨h1.trans g1, ?_, ?_, ?_, h3.trans g3, h4.trans g4, h5.trans g5, ?_⟩
    · rw [h2]; exact g6
    · rw [h2]; exact g7
    · rw [h2]; exact g8
    · intro j; rw [h7 j, g2]
  · exact ⟨g1, g6, g7, g8, g3, g4, g5, fun j => by rw [g2]⟩

/-- The event of one pin-loop body, written out. -/
theorem pinBody_event (s : PokeyDevice) (i : Nat) :
    (pinBody s i).2 =
      if (s.pins i).type = "DIGITAL_INPUT" ∧
          (s.pins i).value ≠ ((s.pokey.Pins i).DigitalValueGet : Int) then
        some { ownerPlugin := s.pluginInstance
               type := ConfigType.CONFIG_BOOL
               value := TLVValue.bool_value (decide (((s.pokey.Pins i).DigitalValueGet : Int) ≠ 0))
               length := 1
               name := (s.pins i).pinName
               description := (s.pins i).description
               units := (s.encoders i).units }
      else none := by
  unfold pinBody
  by_cases ht : (s.pins i).type = "DIGITAL_INPUT"
  · by_cases hv : (s.pins i).value = ((s.pokey.Pins i).DigitalValueGet : Int)
    · simp [ht, hv]
    · simp [ht, hv]
  · simp [ht]

/-- The event of pin-loop iteration `i`, in terms of the state before the cycle. -/
theorem pinEventAt_eq (self : PokeyDevice) (r : PollReply) (i : Nat) :
    pinEventAt self r i =
      if r.ret = PK_OK ∧ i < self.pokey.iPinCount ∧ (self.pins i).type = "DIGITAL_INPUT" ∧
          (self.pins i).value ≠ (r.DigitalValueGet i : Int) then
        some { ownerPlugin := self.pluginInstance
               type := ConfigType.CONFIG_BOOL
               value := TLVValue.bool_value (decide ((r.DigitalValueGet i : Int) ≠ 0))
               length := 1
               name := (self.pins i).pinName
               description := (self.pins i).description
               units := (self.encoders i).units }
      else none := by
  obtain ⟨e1, _, e3, _, e5, _, _, e8⟩ := pollEncoders_frame self r
  obtain ⟨d1, d2, d3, _, _, d6, _, d8⟩ := PK_DigitalIOGet_frame (pollEncoders self r).1 r
  unfold pinEventAt
  simp only [d6, e3]
  by_cases hok : r.ret = PK_OK
  · by_cases hi : i < self.pokey.iPinCount
    · obtain ⟨f1, f2, f3, _, _, f6⟩ := pinLoop_frame (PK_DigitalIOGet (pollEncoders self r).1 r) i
      rw [if_pos ⟨hok, hi⟩, pinBody_event]
      have hpins : (pinLoop (PK_DigitalIOGet (pollEncoders self r).1 r) i).1.pins i = self.pins i := by
        rw [f6 i (le_refl _), d1, e1]
      have hmir : ((pinLoop (PK_DigitalIOGet (pollEncoders self r).1 r) i).1.pokey.Pins i).DigitalValueGet
          = r.DigitalValueGet i := by
        rw [f2]; exact d8 hok i
      have hun : ((pinLoop (PK_DigitalIOGet (pollEncoders self r).1 r) i).1.encoders i).units
          = (self.encoders i).units := by
        rw [f1, d2]; exact e8 i
      have hpl : (pinLoop (PK_DigitalIOGet (pollEncoders self r).1 r) i).1.pluginInstance
          = self.pluginInstance := by
        rw [f3, d3]; exact e5
      simp only [hpins, hmir, hun, hpl, hok, hi, true_and]
    · simp [hi]
  · simp [hok]

theorem pollPins_frame (self : PokeyDevice) (r : PollReply) :
    (pollPins self r).1.encoders = self.encoders ∧
    (pollPins self r).1.encoderMap = self.encoderMap ∧
    (pollPins self r).1.matrixLED = self.matrixLED ∧
    (pollPins self r).1.pokey.MatrixLED = self.pokey.MatrixLED := by
  obtain ⟨d1, d2, d3, d4, d5, d6, d7, _⟩ := PK_DigitalIOGet_frame self r
  unfold pollPins
  simp only []
  split
  · obtain ⟨f1, f2, _, f4, f5, _⟩ := pinLoop_frame (PK_DigitalIOGet self r)
      (PK_DigitalIOGet self r).pokey.iPinCount
    refine ⟨f1.trans d2, f4.trans d4, f5.trans d5, ?_⟩
    rw [f2]; exact d7
  · exact ⟨d2, d4, d5, d7⟩

/-- The event of one encoder-loop body, written out. -/
theorem encoderBody_event (s : PokeyDevice) (i : Nat) :
    (encoderBody s i).2 =
      if u32 (s.encoders i).previousEncoderValue ≠ u32 (s.pokey.Encoders i).encoderValue then
        some { ownerPlugin := s.pluginInstance
               type := ConfigType.CONFIG_INT
               value := TLVValue.int_value (i32 ((encoderBody s i).1.encoders i).value)
               length := 4
               name := (s.encoders i).name
               description := (s.encoders i).description
               units := (s.encoders i).units }
      else none := by
  unfold encoderBody
  simp only []
  split
  · simp only [Function.update_same]
    split <;> split <;> rfl
  · rfl

/-- Iteration `i` of the encoder loop sees encoder `i` as it was before the cycle. -/
theorem encoderLoop_body (s : PokeyDevice) (i : Nat) :
    (encoderBody (encoderLoop s i).1 i).2 = (encoderBody s i).2 ∧
    (encoderBody (encoderLoop s i).1 i).1.encoders i = (encoderBody s i).1.encoders i := by
  obtain ⟨_, h2, h3, _, _, h6, _⟩ := encoderLoop_frame s i
  exact encoderBody_local (encoderLoop s i).1 s i (h6 i (le_refl _)) (by rw [h2]) h3

/-- The event of encoder-loop iteration `i`, in terms of the state the loop starts from. -/
theorem encoderEventAt_eq (self : PokeyDevice) (r : PollReply) (i : Nat) :
    encoderEventAt self r i =
      if r.encoderRetValue = PK_OK ∧ i < self.encoderMap.size then
        (encoderBody (PK_EncoderValuesGet self r) i).2
      else none := by
  obtain ⟨_, _, _, g4, _⟩ := PK_EncoderValuesGet_frame self r
  unfold encoderEventAt
  simp only [g4]
  split
  · exact (encoderLoop_body _ i).1
  · rfl

/-- After the cycle, a visited encoder is what its own loop body made of it. -/
theorem DigitalIOTimerCallback_encoder (self : PokeyDevice) (r : PollReply) (i : Nat)
    (hok : r.encoderRetValue = PK_OK) (hi : i < self.encoderMap.size) :
    (DigitalIOTimerCallback self r).1.encoders i =
      (encoderBody (PK_EncoderValuesGet self r) i).1.encoders i := by
  obtain ⟨_, _, _, g4, _⟩ := PK_EncoderValuesGet_frame self r
  unfold DigitalIOTimerCallback
  simp only []
  rw [(pollPins_frame _ r).1]
  unfold pollEncoders
  simp only [hok, if_true, g4]
  rw [encoderLoop_later _ i _ hi]
  exact (encoderLoop_body _ i).2

/-- An encoder the loop does not visit is left as it was. -/
theorem DigitalIOTimerCallback_encoder_unvisited (self : PokeyDevice) (r : PollReply) (j : Int)
    (hj : (self.encoderMap.size : Int) ≤ j) :
    (DigitalIOTimerCallback self r).1.encoders j = self.encoders j := by
  obtain ⟨_, g2, _, g4, _⟩ := PK_EncoderValuesGet_frame self r
  unfold DigitalIOTimerCallback
  simp only []
  rw [(pollPins_frame _ r).1]
  unfold pollEncoders
  simp only [g4]
  split
  · rw [(encoderLoop_frame _ _).2.2.2.2.2.1 j hj, g2]
  · rw [g2]

/-- The events of a poll cycle are those of the encoder-loop iterations, in order,
followed by those of the pin-loop iterations, in order. -/
theorem DigitalIOTimerCallback_events (self : PokeyDevice) (r : PollReply) :
    (DigitalIOTimerCallback self r).2 =
      (List.range self.encoderMap.size).filterMap (encoderEventAt self r) ++
      (List.range self.pokey.iPinCount).filterMap (pinEventAt self r) := by
  obtain ⟨_, _, _, g4, _⟩ := PK_EncoderValuesGet_frame self r
  obtain ⟨_, _, e3, _⟩ := pollEncoders_frame self r
  obtain ⟨_, _, _, _, _, d6, _⟩ := PK_DigitalIOGet_frame (pollEncoders self r).1 r
  unfold DigitalIOTimerCallback
  simp only []
  congr 1
  · unfold pollEncoders encoderEventAt
    simp only [g4]
    split
    · rename_i hok
      rw [encoderLoop_events]
      apply List.filterMap_congr
      intro i hi
      rw [if_pos ⟨hok, List.mem_range.mp hi⟩]
    · rename_i hok
      simp [hok]
  · unfold pollPins pinEventAt
    simp only [d6, e3]
    split
    · rename_i hok
      rw [pinLoop_events]
      apply List.filterMap_congr
      intro i hi
      rw [if_pos ⟨hok, List.mem_range.mp hi⟩]
    · rename_i hok
      simp [hok]

/-! ## Loops over index ranges -/

theorem forRange_of_le {σ : Type} (a b : Int) (body : Int → σ → σ) (s : σ) (h : b ≤ a) :
    forRange a b body s = s := by
  unfold forRange
  have : (b - a).toNat = 0 := by omega
  rw [this]
  rfl

theorem forRange_succ {σ : Type} (a b : Int) (body : Int → σ → σ) (s : σ) (h : a ≤ b) :
    forRange a (b + 1) body s = body b (forRange a b body s) := by
  unfold forRange
  have h1 : (b + 1 - a).toNat = (b - a).toNat + 1 := by omega
  have h2 : a + ((b - a).toNat : Int) = b := by omega
  rw [h1, List.range_succ, List.foldl_append]
  simp only [List.foldl_cons, List.foldl_nil, h2]

/-- Induction principle for `forRange a b`: a property of the state that holds
at the start and is carried by every body `i` with `a ≤ i < b` holds at the end. -/
theorem forRange_induct {σ : Type} (a b : Int) (body : Int → σ → σ) (s : σ)
    (P : Int → σ → Prop) (h0 : P a s)
    (hstep : ∀ i acc, a ≤ i → i < b → P i acc → P (i + 1) (body i acc)) (hab : a ≤ b) :
    P b (forRange a b body s) := by
  obtain ⟨n, rfl⟩ : ∃ n : Nat, b = a + n := ⟨(b - a).toNat, by omega⟩
  clear hab
  induction n with
  | zero =>
    simp only [Nat.cast_zero, add_zero] at *
    rw [forRange_of_le _ _ _ _ (le_refl _)]
    exact h0
  | succ n ih =>
    have e : a + ((n + 1 : Nat) : Int) = (a + n) + 1 := by push_cast; ring
    rw [e, forRange_succ _ _ _ _ (by omega)]
    apply hstep _ _ (by omega) (by omega)
    apply ih
    intro i acc h1 h2 h3
    exact hstep i acc h1 (by omega) h3

/-- Clearing loop: cells in `[a, b)` become 0, the others are untouched. -/
theorem forRange_clear (a b : Int) (data : Int → Nat) (j : Int) :
    forRange a b (fun i d => Function.update d i 0) data j =
      if a ≤ j ∧ j < b then 0 else data j := by
  by_cases hab : a ≤ b
  · refine forRange_induct a b (fun i d => Function.update d i 0) data
      (fun c d => d j = if a ≤ j ∧ j < c then 0 else data j) ?_ ?_ hab
    · have : ¬ (a ≤ j ∧ j < a) := by omega
      simp only [this, if_false]
    · intro i acc h1 _ h3
      by_cases hji : j = i
      · subst hji
        have : a ≤ j ∧ j < j + 1 := by omega
        show Function.update acc j 0 j = _
        simp only [Function.update_same, this, and_self, if_true]
      · show Function.update acc i 0 j = _
        rw [Function.update_noteq hji, h3]
        by_cases hc : a ≤ j ∧ j < i
        · have : a ≤ j ∧ j < i + 1 := by omega
          simp only [hc, this, and_self, if_true]
        · have : ¬ (a ≤ j ∧ j < i + 1) := by omega
          simp only [hc, this, if_false]
  · rw [forRange_of_le _ _ _ _ (by omega)]
    have : ¬ (a ≤ j ∧ j < b) := by omega
    simp only [this, if_false]

/-- Group lookup: when the group at index `pos` (below the group capacity) has
the target name and no later group has it, the lookup returns `pos`. -/
theorem findGroupIndex_eq (MAX_MATRIX_LED_GROUPS : Nat) (led : MatrixLED) (targetName : String)
    (pos : Int) (h0 : 0 ≤ pos) (h1 : pos < MAX_MATRIX_LED_GROUPS)
    (hname : (led.group pos).name = targetName)
    (hlast : ∀ j : Int, pos < j → j < MAX_MATRIX_LED_GROUPS → (led.group j).name ≠ targetName) :
    findGroupIndex MAX_MATRIX_LED_GROUPS led targetName = pos := by
  unfold findGroupIndex
  have key := forRange_induct 0 (MAX_MATRIX_LED_GROUPS : Int)
    (fun i groupIndex => if (led.group i).name = targetName then i else groupIndex) 0
    (fun c g => pos < c → g = pos) (by intro h; omega) ?_ (by omega)
  · exact key h1
  · intro i acc hi0 hi1 ih hlt
    by_cases hip : i = pos
    · subst hip
      simp only [hname, if_true]
    · have hpi : pos < i := by omega
      simp only [hlast i hpi hi1, if_false]
      exact ih hpi

/-! ## Decimal text -/

theorem toDigitsCore_acc (fuel n : Nat) (acc : List Char) :
    Nat.toDigitsCore 10 fuel n acc = Nat.toDigitsCore 10 fuel n [] ++ acc := by
  induction fuel generalizing n acc with
  | zero => simp [Nat.toDigitsCore]
  | succ f ih =>
    simp only [Nat.toDigitsCore]
    split
    · simp
    · rw [ih (n / 10) (Nat.digitChar (n % 10) :: acc), ih (n / 10) [Nat.digitChar (n % 10)]]
      simp

theorem toDigitsCore_fuel (fuel fuel2 n : Nat) (h1 : n < fuel) (h2 : n < fuel2) :
    Nat.toDigitsCore 10 fuel n [] = Nat.toDigitsCore 10 fuel2 n [] := by
  induction fuel generalizing n fuel2 with
  | zero => omega
  | succ f ih =>
    cases fuel2 with
    | zero => omega
    | succ g =>
      simp only [Nat.toDigitsCore]
      split
      · rfl
      · rename_i hne
        have hlt : n / 10 < n := Nat.div_lt_self (by omega) (by omega)
        rw [toDigitsCore_acc f, toDigitsCore_acc g, ih g (n / 10) (by omega) (by omega)]

theorem toDigits_small (n : Nat) (h : n < 10) : Nat.toDigits 10 n = [Nat.digitChar n] := by
  unfold Nat.toDigits
  simp only [Nat.toDigitsCore]
  have h1 : n / 10 = 0 := by omega
  have h2 : n % 10 = n := by omega
  simp [h1, h2]

theorem toDigits_step (n : Nat) (h : 10 ≤ n) :
    Nat.toDigits 10 n = Nat.toDigits 10 (n / 10) ++ [Nat.digitChar (n % 10)] := by
  have h1 : n / 10 ≠ 0 := by omega
  have e : Nat.toDigitsCore 10 (n + 1) n [] =
      Nat.toDigitsCore 10 n (n / 10) [Nat.digitChar (n % 10)] := by
    simp only [Nat.toDigitsCore, h1, if_false]
  unfold Nat.toDigits
  rw [e, toDigitsCore_acc, toDigitsCore_fuel n (n / 10 + 1) (n / 10) (by omega) (by omega)]

/-- The text of `n` with `k + 1` decimal digits: its length, and its `i`-th
character (most significant first) is the character of digit `n / 10^(k-i) % 10`. -/
theorem toDigits_digit (k : Nat) : ∀ n : Nat, 10 ^ k ≤ n → n < 10 ^ (k + 1) →
    (Nat.toDigits 10 n).length = k + 1 ∧
    ∀ i : Nat, i ≤ k → ∀ c : Char,
      (Nat.toDigits 10 n).getD i c = Nat.digitChar (n / 10 ^ (k - i) % 10) := by
  induction k with
  | zero =>
    intro n h1 h2
    have hn : n < 10 := by simpa using h2
    rw [toDigits_small n hn]
    refine ⟨rfl, ?_⟩
    intro i hi c
    have hi0 : i = 0 := by omega
    subst hi0
    have : n % 10 = n := by omega
    simp [this]
  | succ k ih =>
    intro n h1 h2
    have h10 : 10 ≤ n := by
      have : 10 ^ 1 ≤ 10 ^ (k + 1) := Nat.pow_le_pow_right (by omega) (by omega)
      omega
    have hq1 : 10 ^ k ≤ n / 10 := by
      rw [Nat.le_div_iff_mul_le (by omega)]
      rw [pow_succ] at h1
      exact h1
    have hq2 : n / 10 < 10 ^ (k + 1) := by
      rw [Nat.div_lt_iff_lt_mul (by omega)]
      rw [pow_succ] at h2
      exact h2
    obtain ⟨hl, hd⟩ := ih (n / 10) hq1 hq2
    rw [toDigits_step n h10]
    refine ⟨by simp [hl], ?_⟩
    intro i hi c
    by_cases hik : i ≤ k
    · rw [List.getD_append _ _ _ _ (by omega), hd i hik c]
      have : k + 1 - i = (k - i) + 1 := by omega
      rw [this, pow_succ, Nat.div_div_eq_div_mul, Nat.mul_comm]
    · have hi1 : i = k + 1 := by omega
      subst hi1
      rw [List.getD_append_right _ _ _ _ (by omega)]
      simp [hl]

theorem digitChar_toNat (d : Nat) (h : d < 10) : ((Nat.digitChar d).toNat : Int) - 48 = d := by
  interval_cases d <;> decide

/-! ## Display rendering and registry lemmas -/

theorem cells_displayNumber (MAX_MATRIX_LED_GROUPS : Nat) (self : PokeyDevice)
    (PK_MatrixLEDUpdate : Int) (d : Nat) (targetName : String) (value : Int) :
    cells (displayNumber MAX_MATRIX_LED_GROUPS self PK_MatrixLEDUpdate d targetName value).1 d =
      (renderGroup MAX_MATRIX_LED_GROUPS self d targetName value).2 := by
  unfold displayNumber cells
  split <;> simp only [Function.update_same]

theorem renderChar_zero (charString : List Char) (groupIndex groupLength i : Int)
    (acc : Int × (Int → Nat)) :
    renderChar 0 charString groupIndex groupLength i acc = acc := by
  unfold renderChar
  simp

/-- Rendering 0 into a resolved group of length at least 1. -/
theorem renderGroup_zero (MAX_MATRIX_LED_GROUPS : Nat) (self : PokeyDevice) (d : Nat)
    (targetName : String) (pos L : Int)
    (h0 : 0 ≤ pos) (hM : pos < MAX_MATRIX_LED_GROUPS)
    (hname : ((self.matrixLED d).group pos).name = targetName)
    (hposition : ((self.matrixLED d).group pos).position = pos)
    (hlen : ((self.matrixLED d).group pos).length = L)
    (hlast : ∀ j : Int, pos < j → j < MAX_MATRIX_LED_GROUPS →
      ((self.matrixLED d).group j).name ≠ targetName)
    (hL : 1 ≤ L) (j : Int) :
    (renderGroup MAX_MATRIX_LED_GROUPS self d targetName 0).2 j =
      if j = pos + L - 1 then intToDisplayRow 0
      else if pos ≤ j ∧ j < L + pos then 0
      else cells self d j := by
  have hg := findGroupIndex_eq MAX_MATRIX_LED_GROUPS (self.matrixLED d) targetName pos h0 hM
    hname hlast
  have hs : to_string 0 = ['0'] := by decide
  unfold renderGroup
  simp only [hg, hlen, hposition]
  have hv : (if (0 : Int) < -1 then i32 (0 * -1) else 0) = 0 := by decide
  rw [hv, hs]
  have h1 : (([('0' : Char)].length : Nat) : Int) ≤ L := by simpa using hL
  rw [if_pos h1, if_pos rfl]
  have e1 : (([('0' : Char)].length : Nat) : Int) = 0 + 1 := by simp
  rw [e1, forRange_succ _ _ _ _ (le_refl _), forRange_of_le _ _ _ _ (le_refl _), renderChar_zero]
  dsimp only
  by_cases hj : j = pos + L - 1
  · subst hj
    simp only [Function.update_same, if_true]
  · rw [Function.update_noteq hj, forRange_clear, if_neg hj]
    rfl

theorem i32_of_range (x : Int) (h1 : -2147483648 ≤ x) (h2 : x < 2147483648) : i32 x = x := by
  unfold i32
  rw [Int.emod_eq_of_lt (by omega) (by omega)]
  omega

/-- The group table after `addGroupToMatrixLED`. -/
theorem addGroupToMatrixLED_group (self : PokeyDevice) (id : Int) (d : Int) (name : String)
    (L pos : Int) (j : Int) :
    ((addGroupToMatrixLED self id d name L pos).matrixLED d).group j =
      if j = pos then { (self.matrixLED d).group pos with
        name := name, position := pos, length := L, value := 0 }
      else (self.matrixLED d).group j := by
  unfold addGroupToMatrixLED
  simp only [Function.update_same]
  by_cases hj : j = pos
  · subst hj; simp
  · simp [Function.update_noteq hj, hj]

/-- Per-character loop for a positive value: cell `g + i` receives the row
pattern of character `i`, for every `i` below the number of characters. -/
theorem forRange_renderChar_pos (value : Int) (hv : 0 < value) (cs : List Char) (g L : Int)
    (m : Nat) (v0 : Int) (data : Int → Nat) (j : Int) :
    (forRange 0 m (renderChar value cs g L) (v0, data)).2 j =
      if g ≤ j ∧ j < g + m then
        intToDisplayRow (((cs.getD (j - g).toNat (Char.ofNat 0)).toNat : Int) - 48)
      else data j := by
  refine forRange_induct 0 (m : Int) (renderChar value cs g L) (v0, data)
    (fun c acc => acc.2 j = if g ≤ j ∧ j < g + c then
        intToDisplayRow (((cs.getD (j - g).toNat (Char.ofNat 0)).toNat : Int) - 48)
      else data j) ?_ ?_ (by omega)
  · have : ¬ (g ≤ j ∧ j < g + 0) := by omega
    simp only [this, if_false]
  · intro i acc hi0 _ ih
    unfold renderChar
    simp only [hv, if_true]
    by_cases hji : j = g + i
    · subst hji
      have h1 : g ≤ g + i ∧ g + i < g + (i + 1) := by omega
      have h2 : g + i - g = i := by omega
      simp only [Function.update_same, h1, and_self, if_true, h2]
    · rw [Function.update_noteq hji, ih]
      by_cases hc : g ≤ j ∧ j < g + i
      · have : g ≤ j ∧ j < g + (i + 1) := by omega
        simp only [hc, this, and_self, if_true]
      · have : ¬ (g ≤ j ∧ j < g + (i + 1)) := by omega
        simp only [hc, this, if_false]

/-- Rendering a value whose magnitude `n > 0` has `k + 1` digits into a resolved
group of length at least `k + 1`. -/
theorem renderGroup_digits (MAX_MATRIX_LED_GROUPS : Nat) (self : PokeyDevice) (d : Nat)
    (targetName : String) (pos L : Int)
    (h0 : 0 ≤ pos) (hM : pos < MAX_MATRIX_LED_GROUPS)
    (hname : ((self.matrixLED d).group pos).name = targetName)
    (hlen : ((self.matrixLED d).group pos).length = L)
    (hlast : ∀ j : Int, pos < j → j < MAX_MATRIX_LED_GROUPS →
      ((self.matrixLED d).group j).name ≠ targetName)
    (v : Int) (hv : 0 < v ∨ v < -1) (hlo : -2147483648 < v) (hhi : v < 2147483648)
    (k : Nat) (hk1 : 10 ^ k ≤ v.natAbs) (hk2 : v.natAbs < 10 ^ (k + 1))
    (hfit : (k : Int) + 1 ≤ L) (j : Int) :
    (renderGroup MAX_MATRIX_LED_GROUPS self d targetName v).2 j =
      if pos ≤ j ∧ j < pos + (k + 1) then
        intToDisplayRow ((v.natAbs / 10 ^ (k - (j - pos).toNat) % 10 : Nat) : Int)
      else cells self d j := by
  have hg := findGroupIndex_eq MAX_MATRIX_LED_GROUPS (self.matrixLED d) targetName pos h0 hM
    hname hlast
  have hn : (if v < -1 then i32 (v * -1) else v) = (v.natAbs : Int) := by
    split
    · rw [i32_of_range _ (by omega) (by omega)]; omega
    · omega
  have hnpos : (0 : Int) < (v.natAbs : Int) := by omega
  obtain ⟨hl, hd⟩ := toDigits_digit k v.natAbs hk1 hk2
  have hs : to_string (v.natAbs : Int) = Nat.toDigits 10 v.natAbs := by
    unfold to_string
    rw [if_neg (by omega), Int.natAbs_ofNat]
  unfold renderGroup
  simp only [hg, hlen, hn, hs, hl]
  have hfit2 : (((k + 1 : Nat)) : Int) ≤ L := by push_cast; exact hfit
  rw [if_pos hfit2, if_neg (by omega), forRange_renderChar_pos _ hnpos]
  by_cases hc : pos ≤ j ∧ j < pos + (k + 1)
  · have hc2 : pos ≤ j ∧ j < pos + ((k + 1 : Nat) : Int) := by push_cast; exact hc
    rw [if_pos hc, if_pos hc2, hd (j - pos).toNat (by omega)]
    rw [digitChar_toNat _ (Nat.mod_lt _ (by omega))]
  · have hc2 : ¬ (pos ≤ j ∧ j < pos + ((k + 1 : Nat) : Int)) := by push_cast; exact hc
    rw [if_neg hc, if_neg hc2]
    rfl

theorem NameMap.find_emplace_self (m : NameMap) (k : String) (v : Int)
    (h : m.find k = none) : (m.emplace k v).find k = some v := by
  unfold NameMap.emplace
  rw [h]
  unfold NameMap.find at h ⊢
  induction m with
  | nil => simp [List.lookup]
  | cons p m ih =>
    obtain ⟨a, b⟩ := p
    rw [List.cons_append, List.lookup_cons]
    rw [List.lookup_cons] at h
    cases hka : (k == a) with
    | true => rw [hka] at h; cases h
    | false => rw [hka] at h; exact ih h

theorem u8_of_range (k : Int) (h0 : 0 ≤ k) (h1 : k ≤ 255) : ((u8 k : Nat) : Int) = k := by
  unfold u8
  rw [Int.emod_eq_of_lt h0 (by omega), Int.toNat_of_nonneg h0]

/-! ## The claims -/

/-- C1 (the code at the failing input). Encoder 1 is configured by `addEncoder`
with min 0, max 10, default 5 and step 3, so min ≤ default ≤ max. After two poll
cycles whose raw counter readings rise (6, then 7) the logical value is 11, above
max; after two cycles whose readings fall (4, then 3) it is 4294967295
(2 - 3 as `uint32_t`, -1 as `int`), below min. -/
theorem C1_encoder_value_leaves_range :
    (addEncoder {} {} 1 5 "E" "" 0 10 3 0 "").map
        (fun s =>
          ((s.encoders 0).min, (s.encoders 0).defaultValue, (s.encoders 0).max,
           ((pollMany s [{ encoderValue := fun _ => 6 }, { encoderValue := fun _ => 7 }]).encoders 0).value,
           ((pollMany s [{ encoderValue := fun _ => 4 }, { encoderValue := fun _ => 3 }]).encoders 0).value))
      = some (0, 5, 10, 11, 4294967295) := by
  decide

/-- C2. In any poll cycle, when the reading of pin `i` is a digital level (0 or 1)
and iteration `i` of the pin loop emits an event, the pin has role DIGITAL_INPUT,
the event is boolean, and its value differs from the value stored as the pin's
current value before the cycle, whatever that stored value was. -/
theorem C2_pin_event_value_differs_from_stored (self : PokeyDevice) (r : PollReply) (i : Nat)
    (ev : GenericTLV) (hbit : r.DigitalValueGet i ≤ 1) (hev : pinEventAt self r i = some ev) :
    (self.pins i).type = "DIGITAL_INPUT" ∧ ev.type = ConfigType.CONFIG_BOOL ∧
    ∃ b : Bool, ev.value = TLVValue.bool_value b ∧
      (if b then (1 : Int) else 0) ≠ (self.pins i).value := by
  rw [pinEventAt_eq] at hev
  split at hev
  · rename_i h
    obtain ⟨_, _, ht, hv⟩ := h
    injection hev with hev
    subst hev
    refine ⟨ht, rfl, _, rfl, ?_⟩
    have h01 : r.DigitalValueGet i = 0 ∨ r.DigitalValueGet i = 1 := by omega
    rcases h01 with h0 | h1
    · rw [h0] at hv ⊢
      simpa using fun h => hv h.symm
    · rw [h1] at hv ⊢
      simpa using fun h => hv h.symm
  · cases hev

/-- C2, at a concrete cycle: pin 1 was added with default 0 and reads 1. -/
theorem C2_pin_event_value_differs_from_stored_witness :
    ((fun _ => 1 : Int → Nat) (0 : Nat) ≤ 1 ∧
      pinEventAt (addPin { pokey := { iPinCount := 55 } } "SW" 1 "DIGITAL_INPUT" 0 "switch")
        { DigitalValueGet := fun _ => 1 } 0 =
        some { ownerPlugin := 0, type := ConfigType.CONFIG_BOOL,
               value := TLVValue.bool_value true, length := 1, name := "SW",
               description := "switch", units := "" }) ∧
    ((addPin { pokey := { iPinCount := 55 } } "SW" 1 "DIGITAL_INPUT" 0 "switch").pins (0 : Nat)).type
        = "DIGITAL_INPUT" ∧
    ConfigType.CONFIG_BOOL = ConfigType.CONFIG_BOOL ∧
    ∃ b : Bool, TLVValue.bool_value true = TLVValue.bool_value b ∧
      (if b then (1 : Int) else 0) ≠
        ((addPin { pokey := { iPinCount := 55 } } "SW" 1 "DIGITAL_INPUT" 0 "switch").pins (0 : Nat)).value :=
  ⟨⟨by decide, by decide⟩,
    C2_pin_event_value_differs_from_stored
      (addPin { pokey := { iPinCount := 55 } } "SW" 1 "DIGITAL_INPUT" 0 "switch")
      { DigitalValueGet := fun _ => 1 } 0
      { ownerPlugin := 0, type := ConfigType.CONFIG_BOOL,
        value := TLVValue.bool_value true, length := 1, name := "SW",
        description := "switch", units := "" } (by decide) (by decide)⟩

/-- C3. A digit group is configured by `addGroupToMatrixLED` at position `pos`
(a valid group index) with length `L ≥ 1` on display `d`, and its name resolves
to it (no group at a later index of the display carries the same name). Then
`displayNumber` with that name and value 0 leaves every cell in `[pos, pos+L-1)`
equal to 0 and cell `pos+L-1` equal to `0b11111100`, whatever the buffer held
before and whatever the driver answers. -/
theorem C3_render_zero (MAX_MATRIX_LED_GROUPS : Nat) (self : PokeyDevice)
    (PK_MatrixLEDUpdate : Int) (id : Int) (d : Nat) (name : String) (pos L : Int)
    (h0 : 0 ≤ pos) (hM : pos < MAX_MATRIX_LED_GROUPS)
    (hlast : ∀ j : Int, pos < j → j < MAX_MATRIX_LED_GROUPS →
      ((self.matrixLED d).group j).name ≠ name)
    (hL : 1 ≤ L) :
    (∀ j : Int, pos ≤ j → j < pos + L - 1 →
      cells (displayNumber MAX_MATRIX_LED_GROUPS (addGroupToMatrixLED self id d name L pos)
        PK_MatrixLEDUpdate d name 0).1 d j = 0) ∧
    cells (displayNumber MAX_MATRIX_LED_GROUPS (addGroupToMatrixLED self id d name L pos)
        PK_MatrixLEDUpdate d name 0).1 d (pos + L - 1) = 0b11111100 := by
  have hgrp := addGroupToMatrixLED_group self id d name L pos
  have key := renderGroup_zero MAX_MATRIX_LED_GROUPS (addGroupToMatrixLED self id d name L pos)
    d name pos L h0 hM (by rw [hgrp]; simp) (by rw [hgrp]; simp) (by rw [hgrp]; simp)
    (by
      intro j h1 h2
      rw [hgrp, if_neg (by omega)]
      exact hlast j h1 h2) hL
  constructor
  · intro j hj1 hj2
    rw [cells_displayNumber, key, if_neg (by omega), if_pos ⟨hj1, by omega⟩]
  · rw [cells_displayNumber, key, if_pos rfl]
    decide

/-- C3, at a concrete display: group "alt" at position 2 with length 4 on display
0 of a device whose buffer cells all hold 7. -/
theorem C3_render_zero_witness :
    ((0 : Int) ≤ 2 ∧ (2 : Int) < (8 : Nat) ∧ (1 : Int) ≤ 4) ∧
    ((∀ j : Int, 2 ≤ j → j < 2 + 4 - 1 →
      cells (displayNumber 8
        (addGroupToMatrixLED { pokey := { MatrixLED := fun _ => { data := fun _ => 7 } } }
          0 (0 : Nat) "alt" 4 2) 0 0 "alt" 0).1 (0 : Nat) j = 0) ∧
    cells (displayNumber 8
        (addGroupToMatrixLED { pokey := { MatrixLED := fun _ => { data := fun _ => 7 } } }
          0 (0 : Nat) "alt" 4 2) 0 0 "alt" 0).1 (0 : Nat) (2 + 4 - 1) = 0b11111100) :=
  ⟨⟨by decide, by decide, by decide⟩,
    C3_render_zero 8 { pokey := { MatrixLED := fun _ => { data := fun _ => 7 } } } 0 0 0 "alt" 2 4
      (by decide) (by decide) (fun _ _ _ => by simp) (by decide)⟩

/-- C4. A digit group is configured by `addGroupToMatrixLED` at position `pos`
(a valid group index) with length `L` on display `d`, and its name resolves to
it (no group at a later index of the display carries the same name). For every
`int` value `v` with `v > 0` or `v < -1` (the most negative `int` excluded, whose
negation overflows) whose magnitude has `dg ≤ L` decimal digits, after
`displayNumber` cell `pos + i` holds the row pattern of the `i`-th decimal digit
of `|v|`, most significant first, for every `i < dg`, and every cell in
`[pos + dg, pos + L)` holds what it held before the call. -/
theorem C4_render_digits (MAX_MATRIX_LED_GROUPS : Nat) (self : PokeyDevice)
    (PK_MatrixLEDUpdate : Int) (id : Int) (d : Nat) (name : String) (pos L : Int)
    (h0 : 0 ≤ pos) (hM : pos < MAX_MATRIX_LED_GROUPS)
    (hlast : ∀ j : Int, pos < j → j < MAX_MATRIX_LED_GROUPS →
      ((self.matrixLED d).group j).name ≠ name)
    (v : Int) (hv : 0 < v ∨ v < -1) (hlo : -2147483648 < v) (hhi : v < 2147483648)
    (dg : Nat) (hd1 : 10 ^ (dg - 1) ≤ v.natAbs) (hd2 : v.natAbs < 10 ^ dg)
    (hfit : (dg : Int) ≤ L) :
    (∀ i : Nat, i < dg →
      cells (displayNumber MAX_MATRIX_LED_GROUPS (addGroupToMatrixLED self id d name L pos)
        PK_MatrixLEDUpdate d name v).1 d (pos + i) =
      intToDisplayRow ((v.natAbs / 10 ^ (dg - 1 - i) % 10 : Nat) : Int)) ∧
    (∀ j : Int, pos + dg ≤ j → j < pos + L →
      cells (displayNumber MAX_MATRIX_LED_GROUPS (addGroupToMatrixLED self id d name L pos)
        PK_MatrixLEDUpdate d name v).1 d j =
      cells (addGroupToMatrixLED self id d name L pos) d j) := by
  have hgrp := addGroupToMatrixLED_group self id d name L pos
  have hdg : 1 ≤ dg := by
    rcases Nat.eq_zero_or_pos dg with hz | hp
    · subst hz
      simp at hd1 hd2
      omega
    · exact hp
  have hk : dg - 1 + 1 = dg := by omega
  have key := renderGroup_digits MAX_MATRIX_LED_GROUPS (addGroupToMatrixLED self id d name L pos)
    d name pos L h0 hM (by rw [hgrp]; simp) (by rw [hgrp]; simp)
    (by
      intro j h1 h2
      rw [hgrp, if_neg (by omega)]
      exact hlast j h1 h2) v hv hlo hhi (dg - 1) hd1 (by rw [hk]; exact hd2) (by omega)
  constructor
  · intro i hi
    rw [cells_displayNumber, key, if_pos ⟨by omega, by omega⟩]
    have : (pos + (i : Int) - pos).toNat = i := by omega
    rw [this]
  · intro j hj1 hj2
    rw [cells_displayNumber, key, if_neg (by omega)]

/-- C4, at a concrete display: -345 rendered into group "alt" (position 2, length
4) of a display whose cells all hold 7 gives the patterns of 3, 4, 5 in cells 2,
3, 4 and leaves cell 5 at 7. -/
theorem C4_render_digits_witness :
    ((0 : Int) ≤ 2 ∧ (2 : Int) < (8 : Nat) ∧ ((0 : Int) < -345 ∨ (-345 : Int) < -1) ∧
      10 ^ (3 - 1) ≤ (-345 : Int).natAbs ∧ (-345 : Int).natAbs < 10 ^ 3 ∧ ((3 : Nat) : Int) ≤ 4) ∧
    (∀ i : Nat, i < 3 →
      cells (displayNumber 8
        (addGroupToMatrixLED { pokey := { MatrixLED := fun _ => { data := fun _ => 7 } } }
          0 (0 : Nat) "alt" 4 2) 0 0 "alt" (-345)).1 (0 : Nat) (2 + i) =
      intToDisplayRow (((-345 : Int).natAbs / 10 ^ (3 - 1 - i) % 10 : Nat) : Int)) ∧
    (∀ j : Int, 2 + (3 : Nat) ≤ j → j < 2 + 4 →
      cells (displayNumber 8
        (addGroupToMatrixLED { pokey := { MatrixLED := fun _ => { data := fun _ => 7 } } }
          0 (0 : Nat) "alt" 4 2) 0 0 "alt" (-345)).1 (0 : Nat) j =
      cells (addGroupToMatrixLED { pokey := { MatrixLED := fun _ => { data := fun _ => 7 } } }
          0 (0 : Nat) "alt" 4 2) (0 : Nat) j) :=
  ⟨⟨by decide, by decide, by decide, by decide, by decide, by decide⟩,
    C4_render_digits 8 { pokey := { MatrixLED := fun _ => { data := fun _ => 7 } } } 0 0 0 "alt" 2 4
      (by decide) (by decide) (fun _ _ _ => by simp) (-345) (by decide) (by decide) (by decide)
      3 (by decide) (by decide) (by decide)⟩

/-- C5 (the code at the failing input). Group "alt" is configured at position 2
with length 1 on display 0, whose cells all hold 7. `displayNumber` with that
name and value -1 leaves cell 2 at 7: the text "-1" has two characters, more
than the group length, so the blanking loop is never entered. With length 2 the
same call blanks cells 2 and 3. -/
theorem C5_sentinel_not_cleared_for_length_one :
    cells (displayNumber 8
        (addGroupToMatrixLED { pokey := { MatrixLED := fun _ => { data := fun _ => 7 } } }
          0 0 "alt" 1 2) 0 0 "alt" (-1)).1 0 2 = 7 ∧
    (List.range 8).map (fun i : Nat => cells (displayNumber 8
        (addGroupToMatrixLED { pokey := { MatrixLED := fun _ => { data := fun _ => 7 } } }
          0 0 "alt" 2 2) 0 0 "alt" (-1)).1 0 i) = [7, 7, 0, 0, 7, 7, 7, 7] := by
  decide

/-- C6, refuted as stated: in the display table, a not-yet-registered name
registered with index 256 is looked up as 0, not 256; and one registered with
index 255 is looked up as 255, which is also what the lookup of a
never-registered name returns. -/
theorem C6_counterexample :
    NameMap.find ({} : PokeyDevice).displayMap "X" = none ∧
    ((displayFromName (mapNameToMatrixLED {} "X" 256) "X" : Nat) : Int) ≠ 256 ∧
    displayFromName (mapNameToMatrixLED {} "X" 255) "X" = displayFromName {} "X" := by
  decide

/-- C6 (amended). For every state of the tables, every name `X` not yet
registered and every index (any `int` for the pin table, 0 ≤ k ≤ 254 for the PWM
and display tables): after registering `X` with the index the lookup of `X`
returns it; the lookup of a never-registered name returns the sentinel (-1 from
`pinFromName`, 255 from `PWMFromName` and `displayFromName`); and a name
registered with an index other than -1 (pin table), respectively within 0..254
(PWM and display tables), is never looked up as the sentinel. -/
theorem C6_registry_round_trip (self : PokeyDevice) (X : String) (kp k : Int)
    (hpin : self.pinMap.find X = none) (hpwm : self.pwmMap.find X = none)
    (hdisp : self.displayMap.find X = none) (h0 : 0 ≤ k) (h1 : k ≤ 254) :
    (pinFromName (mapNameToPin self X kp) X = kp ∧ pinFromName self X = -1) ∧
    (((PWMFromName (mapNameToPWM self X k) X : Nat) : Int) = k ∧ PWMFromName self X = 255) ∧
    (((displayFromName (mapNameToMatrixLED self X k) X : Nat) : Int) = k ∧
      displayFromName self X = 255) ∧
    (∀ Y v, self.pinMap.find Y = some v → v ≠ -1 → pinFromName self Y ≠ -1) ∧
    (∀ Y v, self.pwmMap.find Y = some v → 0 ≤ v → v ≤ 254 → PWMFromName self Y ≠ 255) ∧
    (∀ Y v, self.displayMap.find Y = some v → 0 ≤ v → v ≤ 254 → displayFromName self Y ≠ 255) := by
  refine ⟨⟨?_, ?_⟩, ⟨?_, ?_⟩, ⟨?_, ?_⟩, ?_, ?_, ?_⟩
  · simp only [pinFromName, mapNameToPin, NameMap.find_emplace_self _ X kp hpin]
  · simp only [pinFromName, hpin]
  · simp only [PWMFromName, mapNameToPWM, NameMap.find_emplace_self _ X k hpwm]
    exact u8_of_range k h0 (by omega)
  · simp only [PWMFromName, hpwm]
    decide
  · simp only [displayFromName, mapNameToMatrixLED, NameMap.find_emplace_self _ X k hdisp]
    exact u8_of_range k h0 (by omega)
  · simp only [displayFromName, hdisp]
    decide
  · intro Y v h hv
    simp only [pinFromName, h]
    exact hv
  · intro Y v h hv0 hv1 hc
    simp only [PWMFromName, h] at hc
    have := u8_of_range v hv0 (by omega)
    rw [hc] at this
    omega
  · intro Y v h hv0 hv1 hc
    simp only [displayFromName, h] at hc
    have := u8_of_range v hv0 (by omega)
    rw [hc] at this
    omega

/-- C6 (amended), at a concrete registry: pin "A" is registered with 4, PWM "P"
with 2 and display "D" with 1; "X" is new and is registered with 7 (pin) and 3. -/
theorem C6_registry_round_trip_witness :
    (NameMap.find [("A", 4)] "X" = none ∧ NameMap.find [("P", 2)] "X" = none ∧
      NameMap.find [("D", 1)] "X" = none ∧ (0 : Int) ≤ 3 ∧ (3 : Int) ≤ 254) ∧
    (pinFromName (mapNameToPin { pinMap := [("A", 4)], pwmMap := [("P", 2)], displayMap := [("D", 1)] }
        "X" 7) "X" = 7 ∧
      pinFromName { pinMap := [("A", 4)], pwmMap := [("P", 2)], displayMap := [("D", 1)] } "X" = -1) :=
  ⟨⟨by decide, by decide, by decide, by decide, by decide⟩,
    (C6_registry_round_trip { pinMap := [("A", 4)], pwmMap := [("P", 2)], displayMap := [("D", 1)] }
      "X" 7 3 (by decide) (by decide) (by decide) (by decide) (by decide)).1⟩

/-- C7. In a poll cycle whose encoder read succeeds, for every encoder index the
loop visits: an event is emitted at that iteration exactly when the raw reading
differs from the last-seen raw counter (wherever the logical value stands, at
min or max included); the event is an integer event carrying the encoder's name,
description and units, and its value is the encoder's logical value after the
cycle, read as `int`. -/
theorem C7_encoder_event_iff_raw_changed (self : PokeyDevice) (r : PollReply) (i : Nat)
    (hok : r.encoderRetValue = PK_OK) (hi : i < self.encoderMap.size) :
    ((encoderEventAt self r i).isSome ↔
        u32 (r.encoderValue i) ≠ u32 (self.encoders i).previousEncoderValue) ∧
    (∀ ev, encoderEventAt self r i = some ev →
        ev.type = ConfigType.CONFIG_INT ∧
        ev.value = TLVValue.int_value (i32 ((DigitalIOTimerCallback self r).1.encoders i).value) ∧
        ev.name = (self.encoders i).name ∧ ev.description = (self.encoders i).description ∧
        ev.units = (self.encoders i).units) := by
  obtain ⟨_, g2, _, _, _, _, _, _, g9⟩ := PK_EncoderValuesGet_frame self r
  rw [encoderEventAt_eq, if_pos ⟨hok, hi⟩, encoderBody_event,
    DigitalIOTimerCallback_encoder self r i hok hi, g9 hok i, g2]
  constructor
  · constructor
    · intro h
      intro hne
      rw [if_neg (by rw [hne]; exact fun h => h rfl)] at h
      cases h
    · intro h
      rw [if_pos (fun h2 => h h2.symm)]
      rfl
  · intro ev hev
    split at hev
    · injection hev with hev
      subst hev
      exact ⟨rfl, rfl, rfl, rfl, rfl⟩
    · cases hev

/-- C7, at a concrete cycle: the encoder stands at max 10 and the raw counter
moves from 5 to 6; the event is emitted and carries 10. -/
theorem C7_encoder_event_iff_raw_changed_witness :
    ((0 : Int) = PK_OK ∧ 0 < NameMap.size [("E", 1)]) ∧
    (((encoderEventAt
          { encoderMap := [("E", 1)],
            encoders := fun _ => { name := "E", value := 10, max := 10, previousEncoderValue := 5 } }
          { encoderValue := fun _ => 6 } 0).isSome ↔
        u32 ((fun _ => 6 : Int → Int) (0 : Nat)) ≠ u32 5) ∧
    (∀ ev, encoderEventAt
          { encoderMap := [("E", 1)],
            encoders := fun _ => { name := "E", value := 10, max := 10, previousEncoderValue := 5 } }
          { encoderValue := fun _ => 6 } 0 = some ev →
        ev.type = ConfigType.CONFIG_INT ∧
        ev.value = TLVValue.int_value (i32 ((DigitalIOTimerCallback
          { encoderMap := [("E", 1)],
            encoders := fun _ => { name := "E", value := 10, max := 10, previousEncoderValue := 5 } }
          { encoderValue := fun _ => 6 }).1.encoders (0 : Nat)).value) ∧
        ev.name = "E" ∧ ev.description = "" ∧ ev.units = "")) :=
  ⟨⟨by decide, by decide⟩,
    C7_encoder_event_iff_raw_changed
      { encoderMap := [("E", 1)],
        encoders := fun _ => { name := "E", value := 10, max := 10, previousEncoderValue := 5 } }
      { encoderValue := fun _ => 6 } 0 (by decide) (by decide)⟩

/-- C8 (the code at the failing input). Only encoder 3 is configured
(`addEncoder(3, ...)`, accepted by the driver), so the encoder table has one
entry and the poll loop visits index 0 only. In a cycle whose encoder read
succeeds and reports 6 for encoder 3 (last seen: 5) and 0 elsewhere, no event is
emitted and
encoder 3 keeps logical value 5 and last-seen raw counter 5. -/
theorem C8_sparse_encoder_not_polled :
    (addEncoder {} {} 3 5 "E3" "" 0 10 1 0 "").map
        (fun s =>
          (s.encoderMap.size,
           (DigitalIOTimerCallback s { encoderValue := fun i => if i = 2 then 6 else 0 }).2,
           ((DigitalIOTimerCallback s { encoderValue := fun i => if i = 2 then 6 else 0 }).1.encoders 2).value,
           ((DigitalIOTimerCallback s { encoderValue := fun i => if i = 2 then 6 else 0 }).1.encoders 2).previousEncoderValue))
      = some (1, [], 5, 5) := by
  decide

/-- C9 (the code at the failing input). Encoder 1 is configured with units "deg"
and pin 1 is added as a DIGITAL_INPUT with default 0. When pin 1 reads 1, the
boolean event emitted for the pin carries the pin's name and description and the
units "deg" of encoder 1. -/
theorem C9_pin_event_units_from_encoder :
    (addEncoder { pokey := { iPinCount := 55 } } {} 1 5 "E" "knob" 0 10 1 0 "deg").map
        (fun s =>
          pinEventAt (addPin s "SW" 1 "DIGITAL_INPUT" 0 "switch")
            { encoderValue := fun _ => 5, DigitalValueGet := fun _ => 1 } 0)
      = some (some { ownerPlugin := 0, type := ConfigType.CONFIG_BOOL,
                     value := TLVValue.bool_value true, length := 1, name := "SW",
                     description := "switch", units := "deg" }) := by
  decide

/-- C10 (the code, for every input). `targetValue(name, int)` returns 0 whatever
status the driver's matrix-LED buffer update returns, although the
`displayNumber` call it makes returns 255 (`(uint8_t)-1`) on a non-OK status
and 0 on OK. -/
theorem C10_targetValue_int_returns_zero (MAX_MATRIX_LED_GROUPS : Nat) (self : PokeyDevice)
    (PK_MatrixLEDUpdate : Int) (targetName : String) (value : Int) :
    (targetValue_int MAX_MATRIX_LED_GROUPS self PK_MatrixLEDUpdate targetName value).2 = 0 ∧
    (displayNumber MAX_MATRIX_LED_GROUPS self PK_MatrixLEDUpdate
        (displayFromName self targetName) targetName value).2 =
      (if PK_MatrixLEDUpdate = PK_OK then 0 else 255) := by
  refine ⟨rfl, ?_⟩
  unfold displayNumber
  by_cases h : PK_MatrixLEDUpdate = PK_OK
  · simp [h]
  · simp only [ne_eq, h, not_false_eq_true, if_true, if_false]
    decide

/-! ## Lemmas on registration, encoder and pin updates, and the rendering frame -/

theorem NameMap.emplace_of_present (m : NameMap) (k : String) (v w : Int)
    (h : m.find k = some w) : m.emplace k v = m := by
  unfold NameMap.emplace
  rw [h]

/-- The operations whose traces keep every driver call inside a locked section,
for every input that shapes the trace. -/
theorem lockDiscipline_locked_operations (self : PokeyDevice) (pinType type targetName : String)
    (encoderNumber val pin : Int) :
    lockDiscipline false trace_DigitalIOTimerCallback = true ∧
    lockDiscipline false (trace_addPin pinType) = true ∧
    lockDiscipline false (trace_addEncoder encoderNumber val) = true ∧
    lockDiscipline false trace_addMatrixLED = true ∧
    lockDiscipline false trace_configMatrixLED = true ∧
    lockDiscipline false trace_targetValue_int = true ∧
    lockDiscipline false (trace_targetValue_bool self targetName) = true ∧
    lockDiscipline false trace_displayNumber = true ∧
    lockDiscipline false (trace_validatePinCapability type) = true ∧
    lockDiscipline false (trace_isEncoderCapable pin) = true ∧
    lockDiscipline false trace_name = true := by
  refine ⟨by decide, ?_, ?_, by decide, by decide, by decide, ?_, by decide, ?_, ?_, by decide⟩
  · unfold trace_addPin
    split
    · decide
    · split <;> decide
  · unfold trace_addEncoder
    split
    · decide
    · split <;> decide
  · unfold trace_targetValue_bool
    simp only []
    split <;> decide
  · unfold trace_validatePinCapability
    split
    · decide
    · split <;> decide
  · unfold trace_isEncoderCapable
    split <;> decide

theorem u32_lt (x : Int) : u32 x < 4294967296 := by
  unfold u32
  have := Int.emod_lt_of_pos x (show (0 : Int) < 4294967296 by decide)
  have := Int.emod_nonneg x (show (4294967296 : Int) ≠ 0 by decide)
  omega

theorem u32_of_range (x : Int) (h0 : 0 ≤ x) (h1 : x < 4294967296) : ((u32 x : Nat) : Int) = x := by
  unfold u32
  rw [Int.emod_eq_of_lt h0 h1, Int.toNat_of_nonneg h0]

theorem u32_idem (x : Int) : u32 (u32 x : Nat) = u32 x := by
  have h := u32_lt x
  have := u32_of_range (u32 x : Nat) (by omega) (by omega)
  exact_mod_cast this

/-- The encoder record after one encoder-loop body, written out. -/
theorem encoderBody_encoder (s : PokeyDevice) (i : Nat) :
    (encoderBody s i).1.encoders i =
      if u32 (s.encoders i).previousEncoderValue ≠ u32 (s.pokey.Encoders i).encoderValue then
        if u32 (s.pokey.Encoders i).encoderValue < u32 (s.encoders i).previousEncoderValue then
          if u32 (s.encoders i).value ≤ u32 (s.encoders i).min then
            { s.encoders i with
                previousValue := u32 (s.encoders i).min
                value := u32 (s.encoders i).min
                previousEncoderValue := u32 (s.pokey.Encoders i).encoderValue }
          else
            { s.encoders i with
                value := u32 ((u32 (s.encoders i).value : Int) - u32 (s.encoders i).step)
                previousEncoderValue := u32 (s.pokey.Encoders i).encoderValue }
        else
          if u32 (s.encoders i).value ≥ u32 (s.encoders i).max then
            { s.encoders i with
                previousValue := u32 (s.encoders i).max
                value := u32 (s.encoders i).max
                previousEncoderValue := u32 (s.pokey.Encoders i).encoderValue }
          else
            { s.encoders i with
                value := u32 ((u32 (s.encoders i).value : Int) + u32 (s.encoders i).step)
                previousEncoderValue := u32 (s.pokey.Encoders i).encoderValue }
      else s.encoders i := by
  unfold encoderBody
  simp only []
  split
  · simp only [Function.update_same]
    split <;> split <;> rfl
  · rfl

/-- After a cycle with a successful encoder read, a visited encoder in terms of
the state before the cycle and the raw reading. -/
theorem DigitalIOTimerCallback_encoder_eq (self : PokeyDevice) (r : PollReply) (i : Nat)
    (hok : r.encoderRetValue = PK_OK) (hi : i < self.encoderMap.size) :
    (DigitalIOTimerCallback self r).1.encoders i =
      if u32 (self.encoders i).previousEncoderValue ≠ u32 (r.encoderValue i) then
        if u32 (r.encoderValue i) < u32 (self.encoders i).previousEncoderValue then
          if u32 (self.encoders i).value ≤ u32 (self.encoders i).min then
            { self.encoders i with
                previousValue := u32 (self.encoders i).min
                value := u32 (self.encoders i).min
                previousEncoderValue := u32 (r.encoderValue i) }
          else
            { self.encoders i with
                value := u32 ((u32 (self.encoders i).value : Int) - u32 (self.encoders i).step)
                previousEncoderValue := u32 (r.encoderValue i) }
        else
          if u32 (self.encoders i).value ≥ u32 (self.encoders i).max then
            { self.encoders i with
                previousValue := u32 (self.encoders i).max
                value := u32 (self.encoders i).max
                previousEncoderValue := u32 (r.encoderValue i) }
          else
            { self.encoders i with
                value := u32 ((u32 (self.encoders i).value : Int) + u32 (self.encoders i).step)
                previousEncoderValue := u32 (r.encoderValue i) }
      else self.encoders i := by
  obtain ⟨_, g2, _, _, _, _, _, _, g9⟩ := PK_EncoderValuesGet_frame self r
  rw [DigitalIOTimerCallback_encoder self r i hok hi, encoderBody_encoder, g9 hok i, g2]

/-- The pin record after one pin-loop body, written out. -/
theorem pinBody_pin (s : PokeyDevice) (i : Nat) :
    (pinBody s i).1.pins i =
      if (s.pins i).type = "DIGITAL_INPUT" ∧
          (s.pins i).value ≠ ((s.pokey.Pins i).DigitalValueGet : Int) then
        { s.pins i with
            previousValue := (s.pins i).value
            value := ((s.pokey.Pins i).DigitalValueGet : Int) }
      else s.pins i := by
  unfold pinBody
  by_cases ht : (s.pins i).type = "DIGITAL_INPUT"
  · by_cases hv : (s.pins i).value = ((s.pokey.Pins i).DigitalValueGet : Int)
    · simp [ht, hv]
    · simp [ht, hv]
  · simp [ht]

/-- After a cycle, a pin in terms of the state before the cycle and the reading. -/
theorem DigitalIOTimerCallback_pin_eq (self : PokeyDevice) (r : PollReply) (i : Nat) :
    (DigitalIOTimerCallback self r).1.pins i =
      if r.ret = PK_OK ∧ i < self.pokey.iPinCount ∧ (self.pins i).type = "DIGITAL_INPUT" ∧
          (self.pins i).value ≠ (r.DigitalValueGet i : Int) then
        { self.pins i with
            previousValue := (self.pins i).value
            value := (r.DigitalValueGet i : Int) }
      else self.pins i := by
  obtain ⟨e1, _, e3, _, _, _, _, _⟩ := pollEncoders_frame self r
  obtain ⟨d1, _, _, _, _, d6, _, d8⟩ := PK_DigitalIOGet_frame (pollEncoders self r).1 r
  unfold DigitalIOTimerCallback
  simp only []
  unfold pollPins
  simp only [d6, e3]
  by_cases hok : r.ret = PK_OK
  · rw [if_pos hok]
    by_cases hi : i < self.pokey.iPinCount
    · obtain ⟨_, f2, _, _, _, f6⟩ := pinLoop_frame (PK_DigitalIOGet (pollEncoders self r).1 r) i
      rw [pinLoop_later _ i _ hi, pinBody_pin, f6 i (le_refl _), f2, d8 hok i, d1, e1]
      simp only [hok, hi, true_and]
    · rw [(pinLoop_frame _ _).2.2.2.2.2 i (by omega), d1, e1]
      simp [hi]
  · simp [hok, d1, e1]

/-- The buffers of the other displays are not touched by `displayNumber`. -/
theorem cells_displayNumber_other (MAX_MATRIX_LED_GROUPS : Nat) (self : PokeyDevice)
    (PK_MatrixLEDUpdate : Int) (d : Nat) (targetName : String) (value : Int) (d2 : Int)
    (h : d2 ≠ (d : Int)) :
    cells (displayNumber MAX_MATRIX_LED_GROUPS self PK_MatrixLEDUpdate d targetName value).1 d2 =
      cells self d2 := by
  unfold displayNumber cells
  split <;> simp only [Function.update_noteq h]

/-- One character step writes only inside the group's range. -/
theorem renderChar_outside (value : Int) (cs : List Char) (g L i : Int)
    (acc : Int × (Int → Nat)) (j : Int) (hi0 : 0 ≤ i) (hiL : i < L) (hj : j < g ∨ g + L ≤ j) :
    (renderChar value cs g L i acc).2 j = acc.2 j := by
  unfold renderChar
  simp only []
  split
  · exact Function.update_noteq (by omega) _ _
  · split
    · dsimp only
      rw [forRange_clear, if_neg (by omega)]
    · rfl

/-- Rendering any value into a resolved group of length at least 1 leaves the
cells outside the group's range as they were. -/
theorem renderGroup_outside (MAX_MATRIX_LED_GROUPS : Nat) (self : PokeyDevice) (d : Nat)
    (targetName : String) (pos L : Int)
    (h0 : 0 ≤ pos) (hM : pos < MAX_MATRIX_LED_GROUPS)
    (hname : ((self.matrixLED d).group pos).name = targetName)
    (hposition : ((self.matrixLED d).group pos).position = pos)
    (hlen : ((self.matrixLED d).group pos).length = L)
    (hlast : ∀ j : Int, pos < j → j < MAX_MATRIX_LED_GROUPS →
      ((self.matrixLED d).group j).name ≠ targetName)
    (hL : 1 ≤ L) (v : Int) (j : Int) (hj : j < pos ∨ pos + L ≤ j) :
    (renderGroup MAX_MATRIX_LED_GROUPS self d targetName v).2 j = cells self d j := by
  have hg := findGroupIndex_eq MAX_MATRIX_LED_GROUPS (self.matrixLED d) targetName pos h0 hM
    hname hlast
  unfold renderGroup
  simp only [hg, hlen, hposition]
  generalize (if v < -1 then i32 (v * -1) else v) = w
  have hdata : (if w = 0 then
        Function.update
          (forRange pos (L + pos) (fun i d => Function.update d i 0) (self.pokey.MatrixLED d).data)
          (pos + L - 1) (intToDisplayRow 0)
      else (self.pokey.MatrixLED d).data) j = cells self d j := by
    split
    · rw [Function.update_noteq (by omega), forRange_clear, if_neg (by omega)]
      rfl
    · rfl
  split
  · rename_i hfit
    rw [← hdata]
    refine forRange_induct 0 ((to_string w).length : Int) (renderChar w (to_string w) pos L) _
      (fun _ acc => acc.2 j = (if w = 0 then
        Function.update
          (forRange pos (L + pos) (fun i d => Function.update d i 0) (self.pokey.MatrixLED d).data)
          (pos + L - 1) (intToDisplayRow 0)
      else (self.pokey.MatrixLED d).data) j) rfl ?_ (by omega)
    intro i acc hi0 hi1 ih
    rw [renderChar_outside w _ pos L i acc j hi0 (by omega) hj]
    exact ih
  · exact hdata

/-- Rendering a positive value with more digits than the resolved group is long
changes neither the buffer nor the group's last rendered value. -/
theorem renderGroup_oversized (MAX_MATRIX_LED_GROUPS : Nat) (self : PokeyDevice) (d : Nat)
    (targetName : String) (pos L : Int)
    (h0 : 0 ≤ pos) (hM : pos < MAX_MATRIX_LED_GROUPS)
    (hname : ((self.matrixLED d).group pos).name = targetName)
    (hlen : ((self.matrixLED d).group pos).length = L)
    (hlast : ∀ j : Int, pos < j → j < MAX_MATRIX_LED_GROUPS →
      ((self.matrixLED d).group j).name ≠ targetName)
    (v : Int) (hv : 0 < v) (dg : Nat) (hd1 : 10 ^ (dg - 1) ≤ v.natAbs) (hd2 : v.natAbs < 10 ^ dg)
    (hbig : L < dg) :
    renderGroup MAX_MATRIX_LED_GROUPS self d targetName v =
      (((self.matrixLED d).group pos).value, cells self d) := by
  have hg := findGroupIndex_eq MAX_MATRIX_LED_GROUPS (self.matrixLED d) targetName pos h0 hM
    hname hlast
  have hdg : 1 ≤ dg := by
    rcases Nat.eq_zero_or_pos dg with hz | hp
    · subst hz
      simp at hd1 hd2
      omega
    · exact hp
  have hk : dg - 1 + 1 = dg := by omega
  obtain ⟨hl, _⟩ := toDigits_digit (dg - 1) v.natAbs hd1 (by rw [hk]; exact hd2)
  have hs : to_string v = Nat.toDigits 10 v.natAbs := by
    unfold to_string
    rw [if_neg (by omega)]
  unfold renderGroup
  simp only [hg, hlen]
  rw [if_neg (show ¬ v < -1 by omega), hs, hl, hk, if_neg (show ¬ ((dg : Int) ≤ L) by omega),
    if_neg (show ¬ v = 0 by omega)]
  rfl

/-! ## The claims, continued -/

/-- C11, refuted as stated: in each table, registering "X" with 1 and then with 2
makes the lookup of "X" return 1, not 2. -/
theorem C11_counterexample :
    pinFromName (mapNameToPin (mapNameToPin {} "X" 1) "X" 2) "X" ≠ 2 ∧
    PWMFromName (mapNameToPWM (mapNameToPWM {} "X" 1) "X" 2) "X" ≠ 2 ∧
    displayFromName (mapNameToMatrixLED (mapNameToMatrixLED {} "X" 1) "X" 2) "X" ≠ 2 := by
  decide

/-- C11 (amended). Duplicate registration is first-writer-wins and not rejected:
for every state of the tables, every name `X` not yet registered and indices `j`
and `k`, after registering `X` with `j` and then `X` with `k` in the same table
the lookup of `X` returns `j` (converted to `uint8_t` by `PWMFromName` and
`displayFromName`), and the second registration leaves the table as it was. -/
theorem C11_duplicate_registration_first_wins (self : PokeyDevice) (X : String) (j k : Int)
    (hpin : self.pinMap.find X = none) (hpwm : self.pwmMap.find X = none)
    (hdisp : self.displayMap.find X = none) :
    (pinFromName (mapNameToPin (mapNameToPin self X j) X k) X = j ∧
      (mapNameToPin (mapNameToPin self X j) X k).pinMap = (mapNameToPin self X j).pinMap) ∧
    (PWMFromName (mapNameToPWM (mapNameToPWM self X j) X k) X = u8 j ∧
      (mapNameToPWM (mapNameToPWM self X j) X k).pwmMap = (mapNameToPWM self X j).pwmMap) ∧
    (displayFromName (mapNameToMatrixLED (mapNameToMatrixLED self X j) X k) X = u8 j ∧
      (mapNameToMatrixLED (mapNameToMatrixLED self X j) X k).displayMap =
        (mapNameToMatrixLED self X j).displayMap) := by
  have e1 := NameMap.find_emplace_self self.pinMap X j hpin
  have e2 := NameMap.find_emplace_self self.pwmMap X j hpwm
  have e3 := NameMap.find_emplace_self self.displayMap X j hdisp
  have f1 := NameMap.emplace_of_present _ X k j e1
  have f2 := NameMap.emplace_of_present _ X k j e2
  have f3 := NameMap.emplace_of_present _ X k j e3
  refine ⟨⟨?_, ?_⟩, ⟨?_, ?_⟩, ⟨?_, ?_⟩⟩
  · simp only [pinFromName, mapNameToPin, f1, e1]
  · simp only [mapNameToPin, f1]
  · simp only [PWMFromName, mapNameToPWM, f2, e2]
  · simp only [mapNameToPWM, f2]
  · simp only [displayFromName, mapNameToMatrixLED, f3, e3]
  · simp only [mapNameToMatrixLED, f3]

/-- C11 (amended), at a concrete registry: "X" is new, registered with 7 and then 9. -/
theorem C11_duplicate_registration_first_wins_witness :
    (NameMap.find [("A", 4)] "X" = none ∧ NameMap.find [("P", 2)] "X" = none ∧
      NameMap.find [("D", 1)] "X" = none) ∧
    pinFromName (mapNameToPin (mapNameToPin
        { pinMap := [("A", 4)], pwmMap := [("P", 2)], displayMap := [("D", 1)] } "X" 7) "X" 9) "X"
      = 7 :=
  ⟨⟨by decide, by decide, by decide⟩,
    (C11_duplicate_registration_first_wins
      { pinMap := [("A", 4)], pwmMap := [("P", 2)], displayMap := [("D", 1)] } "X" 7 9
      (by decide) (by decide) (by decide)).1.1⟩

/-- C12 (the code at the failing input). `addPWM` calls `PK_PWMConfigurationGet`
and `PK_PWMConfigurationSet`, and `targetValue(name, float)` calls
`PK_SL_PWM_SetDuty` and `PK_PWMUpdate` twice each, without ever taking the
global lock: their traces break the lock discipline at the first driver call. -/
theorem C12_pwm_driver_calls_outside_lock :
    lockDiscipline false trace_addPWM = false ∧
    lockDiscipline false trace_targetValue_float = false ∧
    trace_addPWM.head? = some (Step.driver "PK_PWMConfigurationGet") ∧
    trace_targetValue_float.head? = some (Step.driver "PK_SL_PWM_SetDuty") ∧
    Step.acquire ∉ trace_addPWM ∧ Step.acquire ∉ trace_targetValue_float := by
  decide

/-- C14. In a poll cycle whose digital read succeeds, for every pin index `i` of
the device: when the pin has role DIGITAL_INPUT and its new reading `r` differs
from its stored current value `c`, afterwards its previous value is `c`, its
current value is `r`, and iteration `i` emits one boolean event for it (carrying
the pin's name); otherwise (an input pin with an unchanged reading, or a pin of
any other role such as DIGITAL_OUTPUT) its stored current and previous values are
unchanged and no event is emitted. -/
theorem C14_pin_diff_step (self : PokeyDevice) (r : PollReply) (i : Nat)
    (hok : r.ret = PK_OK) (hi : i < self.pokey.iPinCount) :
    ((self.pins i).type = "DIGITAL_INPUT" → (self.pins i).value ≠ (r.DigitalValueGet i : Int) →
      ((DigitalIOTimerCallback self r).1.pins i).previousValue = (self.pins i).value ∧
      ((DigitalIOTimerCallback self r).1.pins i).value = (r.DigitalValueGet i : Int) ∧
      ∃ ev, pinEventAt self r i = some ev ∧ ev.type = ConfigType.CONFIG_BOOL ∧
        ev.name = (self.pins i).pinName) ∧
    (¬ ((self.pins i).type = "DIGITAL_INPUT" ∧ (self.pins i).value ≠ (r.DigitalValueGet i : Int)) →
      ((DigitalIOTimerCallback self r).1.pins i).value = (self.pins i).value ∧
      ((DigitalIOTimerCallback self r).1.pins i).previousValue = (self.pins i).previousValue ∧
      pinEventAt self r i = none) := by
  rw [DigitalIOTimerCallback_pin_eq, pinEventAt_eq]
  constructor
  · intro ht hv
    rw [if_pos ⟨hok, hi, ht, hv⟩, if_pos ⟨hok, hi, ht, hv⟩]
    exact ⟨rfl, rfl, _, rfl, rfl, rfl⟩
  · intro hn
    rw [if_neg (fun h => hn ⟨h.2.2.1, h.2.2.2⟩), if_neg (fun h => hn ⟨h.2.2.1, h.2.2.2⟩)]
    exact ⟨rfl, rfl, rfl⟩

/-- C14, at a concrete cycle: pin 1 is an input with stored value 0 and reads 1. -/
theorem C14_pin_diff_step_witness :
    ((0 : Int) = PK_OK ∧ 0 < 55) ∧
    (((addPin { pokey := { iPinCount := 55 } } "SW" 1 "DIGITAL_INPUT" 0 "switch").pins (0 : Nat)).type
        = "DIGITAL_INPUT" →
      ((addPin { pokey := { iPinCount := 55 } } "SW" 1 "DIGITAL_INPUT" 0 "switch").pins (0 : Nat)).value
        ≠ (((fun _ => 1 : Int → Nat) (0 : Nat) : Nat) : Int) →
      ((DigitalIOTimerCallback
          (addPin { pokey := { iPinCount := 55 } } "SW" 1 "DIGITAL_INPUT" 0 "switch")
          { DigitalValueGet := fun _ => 1 }).1.pins (0 : Nat)).previousValue =
        ((addPin { pokey := { iPinCount := 55 } } "SW" 1 "DIGITAL_INPUT" 0 "switch").pins (0 : Nat)).value ∧
      ((DigitalIOTimerCallback
          (addPin { pokey := { iPinCount := 55 } } "SW" 1 "DIGITAL_INPUT" 0 "switch")
          { DigitalValueGet := fun _ => 1 }).1.pins (0 : Nat)).value =
        (((fun _ => 1 : Int → Nat) (0 : Nat) : Nat) : Int) ∧
      ∃ ev, pinEventAt (addPin { pokey := { iPinCount := 55 } } "SW" 1 "DIGITAL_INPUT" 0 "switch")
          { DigitalValueGet := fun _ => 1 } 0 = some ev ∧ ev.type = ConfigType.CONFIG_BOOL ∧
        ev.name =
          ((addPin { pokey := { iPinCount := 55 } } "SW" 1 "DIGITAL_INPUT" 0 "switch").pins
            (0 : Nat)).pinName) :=
  ⟨⟨by decide, by decide⟩,
    (C14_pin_diff_step (addPin { pokey := { iPinCount := 55 } } "SW" 1 "DIGITAL_INPUT" 0 "switch")
      { DigitalValueGet := fun _ => 1 } 0 (by decide) (by decide)).1⟩

/-- C16. After every poll cycle whose encoder read succeeds, for every visited
encoder the stored last-seen raw counter equals the raw reading of that cycle
(both as `uint32_t`), whether the reading changed or not and whether the logical
value moved or not. -/
theorem C16_last_seen_raw_counter (self : PokeyDevice) (r : PollReply) (i : Nat)
    (hok : r.encoderRetValue = PK_OK) (hi : i < self.encoderMap.size) :
    u32 ((DigitalIOTimerCallback self r).1.encoders i).previousEncoderValue =
      u32 (r.encoderValue i) := by
  rw [DigitalIOTimerCallback_encoder_eq self r i hok hi]
  split
  · split <;> split <;> exact u32_idem _
  · rename_i h
    exact not_not.mp h

/-- C16, at a concrete cycle: the encoder stands at max 10, the raw counter moves
from 5 to 6, the logical value stays at 10 and the last-seen counter becomes 6. -/
theorem C16_last_seen_raw_counter_witness :
    ((0 : Int) = PK_OK ∧ 0 < NameMap.size [("E", 1)]) ∧
    u32 ((DigitalIOTimerCallback
        { encoderMap := [("E", 1)],
          encoders := fun _ => { value := 10, max := 10, step := 1, previousEncoderValue := 5 } }
        { encoderValue := fun _ => 6 }).1.encoders (0 : Nat)).previousEncoderValue =
      u32 ((fun _ => 6 : Int → Int) (0 : Nat)) :=
  ⟨⟨by decide, by decide⟩,
    C16_last_seen_raw_counter
      { encoderMap := [("E", 1)],
        encoders := fun _ => { value := 10, max := 10, step := 1, previousEncoderValue := 5 } }
      { encoderValue := fun _ => 6 } 0 (by decide) (by decide)⟩

/-- C17. A digit group is configured by `addGroupToMatrixLED` at position `pos`
(a valid group index) with length `L` on display `d`, and its name resolves to
it. For every value `v > 0` whose number of decimal digits `dg` exceeds `L`,
`displayNumber` changes no cell of any display buffer and nothing in the group
tables; it sets the refresh flag of display `d`. -/
theorem C17_oversized_not_rendered (MAX_MATRIX_LED_GROUPS : Nat) (self : PokeyDevice)
    (PK_MatrixLEDUpdate : Int) (id : Int) (d : Nat) (name : String) (pos L : Int)
    (h0 : 0 ≤ pos) (hM : pos < MAX_MATRIX_LED_GROUPS)
    (hlast : ∀ j : Int, pos < j → j < MAX_MATRIX_LED_GROUPS →
      ((self.matrixLED d).group j).name ≠ name)
    (v : Int) (hv : 0 < v) (dg : Nat) (hd1 : 10 ^ (dg - 1) ≤ v.natAbs) (hd2 : v.natAbs < 10 ^ dg)
    (hbig : L < dg) :
    (∀ (d2 j : Int),
      cells (displayNumber MAX_MATRIX_LED_GROUPS (addGroupToMatrixLED self id d name L pos)
        PK_MatrixLEDUpdate d name v).1 d2 j =
      cells (addGroupToMatrixLED self id d name L pos) d2 j) ∧
    (displayNumber MAX_MATRIX_LED_GROUPS (addGroupToMatrixLED self id d name L pos)
        PK_MatrixLEDUpdate d name v).1.matrixLED =
      (addGroupToMatrixLED self id d name L pos).matrixLED ∧
    ((displayNumber MAX_MATRIX_LED_GROUPS (addGroupToMatrixLED self id d name L pos)
        PK_MatrixLEDUpdate d name v).1.pokey.MatrixLED d).RefreshFlag = 1 := by
  have hgrp := addGroupToMatrixLED_group self id d name L pos
  have hlast2 : ∀ j : Int, pos < j → j < MAX_MATRIX_LED_GROUPS →
      (((addGroupToMatrixLED self id d name L pos).matrixLED d).group j).name ≠ name := by
    intro j h1 h2
    rw [hgrp, if_neg (by omega)]
    exact hlast j h1 h2
  have hname2 : (((addGroupToMatrixLED self id d name L pos).matrixLED d).group pos).name = name := by
    rw [hgrp]; simp
  have key := renderGroup_oversized MAX_MATRIX_LED_GROUPS (addGroupToMatrixLED self id d name L pos)
    d name pos L h0 hM hname2 (by rw [hgrp]; simp) hlast2 v hv dg hd1 hd2 hbig
  have hg := findGroupIndex_eq MAX_MATRIX_LED_GROUPS
    ((addGroupToMatrixLED self id d name L pos).matrixLED d) name pos h0 hM hname2 hlast2
  refine ⟨?_, ?_, ?_⟩
  · intro d2 j
    by_cases hd : d2 = (d : Int)
    · subst hd
      rw [cells_displayNumber, key]
    · rw [cells_displayNumber_other _ _ _ _ _ _ _ hd]
  · unfold displayNumber
    simp only [key, hg]
    split <;> simp only [Function.update_eq_self]
  · unfold displayNumber
    split <;> simp only [Function.update_same]

/-- C17, at a concrete display: 12345 does not fit group "alt" of length 4. -/
theorem C17_oversized_not_rendered_witness :
    ((0 : Int) ≤ 2 ∧ (2 : Int) < (8 : Nat) ∧ (0 : Int) < 12345 ∧
      10 ^ (5 - 1) ≤ (12345 : Int).natAbs ∧ (12345 : Int).natAbs < 10 ^ 5 ∧ (4 : Int) < (5 : Nat)) ∧
    (∀ (d2 j : Int),
      cells (displayNumber 8
        (addGroupToMatrixLED { pokey := { MatrixLED := fun _ => { data := fun _ => 7 } } }
          0 (0 : Nat) "alt" 4 2) 0 0 "alt" 12345).1 d2 j =
      cells (addGroupToMatrixLED { pokey := { MatrixLED := fun _ => { data := fun _ => 7 } } }
          0 (0 : Nat) "alt" 4 2) d2 j) :=
  ⟨⟨by decide, by decide, by decide, by decide, by decide, by decide⟩,
    (C17_oversized_not_rendered 8 { pokey := { MatrixLED := fun _ => { data := fun _ => 7 } } }
      0 0 0 "alt" 2 4 (by decide) (by decide) (fun _ _ _ => by simp) 12345 (by decide)
      5 (by decide) (by decide) (by decide)).1⟩

/-- C18 (the code at the failing input). No pin is registered; `targetValue("nope",
true)` computes `uint8_t pin = -1 - 1 = 254`, the guard `pin >= 0` passes, one
single-pin write to pin index 254 is issued, and the return value is the driver's
status (0 when the driver answers `PK_OK`), not 0xFFFFFFFF. -/
theorem C18_unregistered_pin_is_written :
    pinFromName {} "nope" = -1 ∧
    targetValue_bool {} (fun _ _ => PK_OK) "nope" true = ([(254, true)], 0) := by
  decide

/-- C20. A digit group is configured by `addGroupToMatrixLED` at position `pos`
(a valid group index) with length `L ≥ 1` on display `d`, and its name resolves
to it (no group at a later index of the display carries the same name). For
every value `v`, `displayNumber` with that name changes no buffer cell of `d`
outside `[pos, pos + L)` and no buffer cell of any other display. -/
theorem C20_rendering_stays_inside_group (MAX_MATRIX_LED_GROUPS : Nat) (self : PokeyDevice)
    (PK_MatrixLEDUpdate : Int) (id : Int) (d : Nat) (name : String) (pos L : Int)
    (h0 : 0 ≤ pos) (hM : pos < MAX_MATRIX_LED_GROUPS)
    (hlast : ∀ j : Int, pos < j → j < MAX_MATRIX_LED_GROUPS →
      ((self.matrixLED d).group j).name ≠ name)
    (hL : 1 ≤ L) (v : Int) :
    (∀ j : Int, j < pos ∨ pos + L ≤ j →
      cells (displayNumber MAX_MATRIX_LED_GROUPS (addGroupToMatrixLED self id d name L pos)
        PK_MatrixLEDUpdate d name v).1 d j =
      cells (addGroupToMatrixLED self id d name L pos) d j) ∧
    (∀ (d2 j : Int), d2 ≠ (d : Int) →
      cells (displayNumber MAX_MATRIX_LED_GROUPS (addGroupToMatrixLED self id d name L pos)
        PK_MatrixLEDUpdate d name v).1 d2 j =
      cells (addGroupToMatrixLED self id d name L pos) d2 j) := by
  have hgrp := addGroupToMatrixLED_group self id d name L pos
  constructor
  · intro j hj
    rw [cells_displayNumber]
    exact renderGroup_outside MAX_MATRIX_LED_GROUPS (addGroupToMatrixLED self id d name L pos)
      d name pos L h0 hM (by rw [hgrp]; simp) (by rw [hgrp]; simp) (by rw [hgrp]; simp)
      (by
        intro j h1 h2
        rw [hgrp, if_neg (by omega)]
        exact hlast j h1 h2) hL v j hj
  · intro d2 j hd
    rw [cells_displayNumber_other _ _ _ _ _ _ _ hd]

/-- C20, at a concrete display: rendering 0 into group "alt" (position 2, length
4) leaves every cell outside 2..5 and every other display as it was. -/
theorem C20_rendering_stays_inside_group_witness :
    ((0 : Int) ≤ 2 ∧ (2 : Int) < (8 : Nat) ∧ (1 : Int) ≤ 4) ∧
    (∀ j : Int, j < 2 ∨ 2 + 4 ≤ j →
      cells (displayNumber 8
        (addGroupToMatrixLED { pokey := { MatrixLED := fun _ => { data := fun _ => 7 } } }
          0 (0 : Nat) "alt" 4 2) 0 0 "alt" 0).1 (0 : Nat) j =
      cells (addGroupToMatrixLED { pokey := { MatrixLED := fun _ => { data := fun _ => 7 } } }
          0 (0 : Nat) "alt" 4 2) (0 : Nat) j) :=
  ⟨⟨by decide, by decide, by decide⟩,
    (C20_rendering_stays_inside_group 8
      { pokey := { MatrixLED := fun _ => { data := fun _ => 7 } } }
      0 0 0 "alt" 2 4 (by decide) (by decide) (fun _ _ _ => by simp) (by decide) 0).1⟩

/-! ## Encoder configuration and capability validation -/

/-- What `validateEncoder` computes, for every driver: false outside the three
ordinals; for encoders 1 and 2 the conjunction of the A capability on index
`A pin - 1` and the B capability on index `B pin - 1`; for encoder 3 the A
capability on index 14 and the B capability on index 14 again. -/
theorem validateEncoder_eq (PK_CheckPinCapability : Nat → ePK_AllPinCap → Int) (n : Int) :
    validateEncoder PK_CheckPinCapability n =
      if n = 1 then
        decide (PK_CheckPinCapability 0 ePK_AllPinCap.PK_AllPinCap_fastEncoder1A ≠ 0) &&
        decide (PK_CheckPinCapability 1 ePK_AllPinCap.PK_AllPinCap_fastEncoder1B ≠ 0)
      else if n = 2 then
        decide (PK_CheckPinCapability 4 ePK_AllPinCap.PK_AllPinCap_fastEncoder2A ≠ 0) &&
        decide (PK_CheckPinCapability 5 ePK_AllPinCap.PK_AllPinCap_fastEncoder2B ≠ 0)
      else if n = 3 then
        decide (PK_CheckPinCapability 14 ePK_AllPinCap.PK_AllPinCap_fastEncoder3A ≠ 0) &&
        decide (PK_CheckPinCapability 14 ePK_AllPinCap.PK_AllPinCap_fastEncoder3B ≠ 0)
      else false := by
  unfold validateEncoder isEncoderCapable ENCODER_1 ENCODER_2 ENCODER_3
  simp

/-- C21 (the code at the failing input). For encoder 1, `addEncoder` writes channel
A pin 1 and channel B pin 0 to the driver configuration both with
`invertDirection` 0 and with `invertDirection` 1: the channels are not exchanged.
For encoders 2 and 3 the two settings do exchange A and B (4, 5 against 5, 4 and
14, 15 against 15, 14). -/
theorem C21_encoder_one_inversion_has_no_effect :
    ((addEncoder {} {} 1 5 "E" "" 0 10 1 0 "").map
        (fun s => ((s.pokey.Encoders 0).channelApin, (s.pokey.Encoders 0).channelBpin)) =
      some (1, 0) ∧
     (addEncoder {} {} 1 5 "E" "" 0 10 1 1 "").map
        (fun s => ((s.pokey.Encoders 0).channelApin, (s.pokey.Encoders 0).channelBpin)) =
      some (1, 0)) ∧
    ((addEncoder {} {} 2 5 "E" "" 0 10 1 0 "").map
        (fun s => ((s.pokey.Encoders 1).channelApin, (s.pokey.Encoders 1).channelBpin)) =
      some (4, 5) ∧
     (addEncoder {} {} 2 5 "E" "" 0 10 1 1 "").map
        (fun s => ((s.pokey.Encoders 1).channelApin, (s.pokey.Encoders 1).channelBpin)) =
      some (5, 4)) ∧
    ((addEncoder {} {} 3 5 "E" "" 0 10 1 0 "").map
        (fun s => ((s.pokey.Encoders 2).channelApin, (s.pokey.Encoders 2).channelBpin)) =
      some (14, 15) ∧
     (addEncoder {} {} 3 5 "E" "" 0 10 1 1 "").map
        (fun s => ((s.pokey.Encoders 2).channelApin, (s.pokey.Encoders 2).channelBpin)) =
      some (15, 14)) := by
  decide

/-- C22 (the code at the failing input). The driver reports fast-encoder-3A on
pin index 14 and fast-encoder-3B on pin index 15, the 0-based indices of pins 15
and 16, and nothing else: `isEncoderCapable(16)` asks for 3B on index 14, so it is
false and `validateEncoder(3)` is false. With 3A and 3B both reported on index 14
and nothing on index 15, `validateEncoder(3)` is true. -/
theorem C22_encoder_three_queries_wrong_index :
    isEncoderCapable
      (reportsOnly [(14, ePK_AllPinCap.PK_AllPinCap_fastEncoder3A),
                    (15, ePK_AllPinCap.PK_AllPinCap_fastEncoder3B)]) 15 = true ∧
    isEncoderCapable
      (reportsOnly [(14, ePK_AllPinCap.PK_AllPinCap_fastEncoder3A),
                    (15, ePK_AllPinCap.PK_AllPinCap_fastEncoder3B)]) 16 = false ∧
    validateEncoder
      (reportsOnly [(14, ePK_AllPinCap.PK_AllPinCap_fastEncoder3A),
                    (15, ePK_AllPinCap.PK_AllPinCap_fastEncoder3B)]) 3 = false ∧
    validateEncoder
      (reportsOnly [(14, ePK_AllPinCap.PK_AllPinCap_fastEncoder3A),
                    (14, ePK_AllPinCap.PK_AllPinCap_fastEncoder3B)]) 3 = true := by
  decide

end PokeyDevice
